import Mathlib

/-!
# fun-translate: the Go-to-Fun translator (`translate/translate.go`)

A shallow embedding of the translator `funC` and its five conversion methods
`Package`, `Import`, `Function`, `Statement` and `Expression`, followed by the
properties of the translation that the specification states.

Layout:
* `token`, `ast`    : the part of the Go syntax tree (`go/token`, `go/ast`) the translator reads;
* `Fun`             : the target tree (`github.com/jBugman/fun-lang/fun`) the translator builds;
* `strconv`, `strings` : the library calls made on literal texts;
* `translate`       : the translator itself, one definition per source function.

A Go call returns a pair `(value, error)` or panics; `Outcome` records which.
-/

/-! ## go/token -/

namespace token

/-- The exported constants of `go/token.Token`, in declaration order. -/
inductive Token where
  | ILLEGAL | EOF | COMMENT
  | IDENT | INT | FLOAT | IMAG | CHAR | STRING
  | ADD | SUB | MUL | QUO | REM
  | AND | OR | XOR | SHL | SHR | AND_NOT
  | ADD_ASSIGN | SUB_ASSIGN | MUL_ASSIGN | QUO_ASSIGN | REM_ASSIGN
  | AND_ASSIGN | OR_ASSIGN | XOR_ASSIGN | SHL_ASSIGN | SHR_ASSIGN | AND_NOT_ASSIGN
  | LAND | LOR | ARROW | INC | DEC
  | EQL | LSS | GTR | ASSIGN | NOT
  | NEQ | LEQ | GEQ | DEFINE | ELLIPSIS
  | LPAREN | LBRACK | LBRACE | COMMA | PERIOD
  | RPAREN | RBRACK | RBRACE | SEMICOLON | COLON
  | BREAK | CASE | CHAN | CONST | CONTINUE
  | DEFAULT | DEFER | ELSE | FALLTHROUGH | FOR
  | FUNC | GO | GOTO | IF | IMPORT
  | INTERFACE | MAP | PACKAGE | RANGE | RETURN
  | SELECT | STRUCT | SWITCH | TYPE | VAR
  | TILDE
  deriving DecidableEq, Repr

/-- The method `Token.String()`: the entry of the `tokens` table of `go/token`. -/
def Token.string : Token → String
  | .ILLEGAL => "ILLEGAL" | .EOF => "EOF" | .COMMENT => "COMMENT"
  | .IDENT => "IDENT" | .INT => "INT" | .FLOAT => "FLOAT" | .IMAG => "IMAG"
  | .CHAR => "CHAR" | .STRING => "STRING"
  | .ADD => "+" | .SUB => "-" | .MUL => "*" | .QUO => "/" | .REM => "%"
  | .AND => "&" | .OR => "|" | .XOR => "^" | .SHL => "<<" | .SHR => ">>" | .AND_NOT => "&^"
  | .ADD_ASSIGN => "+=" | .SUB_ASSIGN => "-=" | .MUL_ASSIGN => "*=" | .QUO_ASSIGN => "/="
  | .REM_ASSIGN => "%="
  | .AND_ASSIGN => "&=" | .OR_ASSIGN => "|=" | .XOR_ASSIGN => "^=" | .SHL_ASSIGN => "<<="
  | .SHR_ASSIGN => ">>=" | .AND_NOT_ASSIGN => "&^="
  | .LAND => "&&" | .LOR => "||" | .ARROW => "<-" | .INC => "++" | .DEC => "--"
  | .EQL => "==" | .LSS => "<" | .GTR => ">" | .ASSIGN => "=" | .NOT => "!"
  | .NEQ => "!=" | .LEQ => "<=" | .GEQ => ">=" | .DEFINE => ":=" | .ELLIPSIS => "..."
  | .LPAREN => "(" | .LBRACK => "[" | .LBRACE => "\x7b" | .COMMA => "," | .PERIOD => "."
  | .RPAREN => ")" | .RBRACK => "]" | .RBRACE => "\x7d" | .SEMICOLON => ";" | .COLON => ":"
  | .BREAK => "break" | .CASE => "case" | .CHAN => "chan" | .CONST => "const"
  | .CONTINUE => "continue"
  | .DEFAULT => "default" | .DEFER => "defer" | .ELSE => "else" | .FALLTHROUGH => "fallthrough"
  | .FOR => "for"
  | .FUNC => "func" | .GO => "go" | .GOTO => "goto" | .IF => "if" | .IMPORT => "import"
  | .INTERFACE => "interface" | .MAP => "map" | .PACKAGE => "package" | .RANGE => "range"
  | .RETURN => "return"
  | .SELECT => "select" | .STRUCT => "struct" | .SWITCH => "switch" | .TYPE => "type"
  | .VAR => "var"
  | .TILDE => "~"

end token

/-! ## go/ast -/

namespace ast

/-- The constants of `ast.ObjKind`. -/
inductive ObjKind where
  | Bad | Pkg | Con | Typ | Var | Fun | Lbl
  deriving DecidableEq, Repr

/-- The node `ast.Object`: the binding an identifier resolves to. Only `Kind` and `Name`
are read by the translator; the untyped `Decl`, `Data` and `Type` fields are left out. -/
structure Object where
  Kind : ObjKind
  Name : String
  deriving DecidableEq, Repr

/-- The node `*ast.Ident`; `Obj` is `none` for the nil pointer. -/
structure Ident where
  Name : String
  Obj : Option Object := none
  deriving DecidableEq, Repr

/-- The node `*ast.BasicLit`: a literal token and its source text. -/
structure BasicLit where
  Kind : token.Token
  Value : String
  deriving DecidableEq, Repr

/-- The interface `ast.Expr`. The five node kinds the translator converts are `Ident`,
`BinaryExpr`, `SelectorExpr`, `CallExpr` and `BasicLit`; the remaining constructors are
the other expression and type nodes of `go/ast` that carry no statement or field list. -/
inductive Expr where
  | BadExpr
  | Ident (id : ast.Ident)
  | Ellipsis (Elt : Option Expr)
  | BasicLit (lit : ast.BasicLit)
  | CompositeLit (Type_ : Option Expr) (Elts : List Expr)
  | ParenExpr (X : Expr)
  | SelectorExpr (X : Expr) (Sel : ast.Ident)
  | IndexExpr (X : Expr) (Index : Expr)
  | SliceExpr (X : Expr) (Low : Option Expr) (High : Option Expr) (Max : Option Expr)
  | TypeAssertExpr (X : Expr) (Type_ : Option Expr)
  | CallExpr (Fun : Expr) (Args : List Expr)
  | StarExpr (X : Expr)
  | UnaryExpr (Op : token.Token) (X : Expr)
  | BinaryExpr (X : Expr) (Op : token.Token) (Y : Expr)
  | KeyValueExpr (Key : Expr) (Value : Expr)
  | ArrayType (Len : Option Expr) (Elt : Expr)
  | MapType (Key : Expr) (Value : Expr)
  | ChanType (Value : Expr)

/-- The interface `ast.Stmt`. The translator converts `ReturnStmt` and `ExprStmt`; the
other constructors are the remaining statement nodes of `go/ast` built from expressions
and statements. A statement list stands for a `*ast.BlockStmt`. -/
inductive Stmt where
  | BadStmt
  | EmptyStmt
  | LabeledStmt (Label : ast.Ident) (Stmt : Stmt)
  | ExprStmt (X : Expr)
  | SendStmt (Chan : Expr) (Value : Expr)
  | IncDecStmt (X : Expr) (Tok : token.Token)
  | AssignStmt (Lhs : List Expr) (Tok : token.Token) (Rhs : List Expr)
  | GoStmt (Call : Expr)
  | DeferStmt (Call : Expr)
  | ReturnStmt (Results : List Expr)
  | BranchStmt (Tok : token.Token) (Label : Option ast.Ident)
  | BlockStmt (List : List Stmt)
  | IfStmt (Init : Option Stmt) (Cond : Expr) (Body : List Stmt) (Else : Option Stmt)
  | ForStmt (Init : Option Stmt) (Cond : Option Expr) (Post : Option Stmt) (Body : List Stmt)
  | RangeStmt (Key : Option Expr) (Value : Option Expr) (Tok : token.Token) (X : Expr)
      (Body : List Stmt)

/-- The node `*ast.Field`: one parameter or result group, `Names` sharing `Type`. -/
structure Field where
  Names : List Ident := []
  Type_ : Expr

/-- The node `*ast.FieldList`. -/
structure FieldList where
  List : List Field := []

/-- The node `*ast.FuncType`; `Results` is `none` for the nil pointer. -/
structure FuncType where
  Params : FieldList := {}
  Results : Option FieldList := none

/-- The node `*ast.BlockStmt`. -/
structure BlockStmt where
  List : List Stmt := []

/-- The node `*ast.FuncDecl`; `Body` is `none` for the nil pointer (a declaration
without a body). -/
structure FuncDecl where
  Recv : Option FieldList := none
  Name : Ident
  Type_ : FuncType := {}
  Body : Option BlockStmt := none

/-- The node `*ast.ImportSpec`; `Name` is the local alias, `none` when there is none. -/
structure ImportSpec where
  Name : Option Ident := none
  Path : BasicLit

/-- The interface `ast.Spec`: the entries of a general declaration. -/
inductive Spec where
  | ImportSpec (s : ast.ImportSpec)
  | ValueSpec (Names : List Ident) (Type_ : Option Expr) (Values : List Expr)
  | TypeSpec (Name : Ident) (Type_ : Expr)

/-- The interface `ast.Decl`: a top-level declaration. `GenDecl` is an import, constant,
type or variable group, told apart by `Tok`. -/
inductive Decl where
  | BadDecl
  | GenDecl (Tok : token.Token) (Specs : List Spec)
  | FuncDecl (d : ast.FuncDecl)

/-- The node `*ast.File`. -/
structure File where
  Name : Ident
  Decls : List Decl := []
  Imports : List ImportSpec := []

end ast

/-! ## The target tree (package `fun`) -/

namespace Fun

/-- A Go `float64`, kept as its IEEE 754 bit pattern. -/
structure Float64 where
  bits : Nat
  deriving DecidableEq, Repr

/-- The value `fun.FuncName`: a qualified function name. -/
structure FuncName where
  V : String
  deriving DecidableEq, Repr

/-- The interface `fun.Expr` with the value kinds the translator builds. -/
inductive Expr where
  | Var (name : String)
  | BinaryOp (X : Expr) (Op : String) (Y : Expr)
  | FuncName (f : Fun.FuncName)
  | Application (Name : Fun.FuncName) (Args : List Expr)
  | IntegerLit (n : Int)
  | DoubleLit (x : Float64)
  | StringLit (s : String)
  | CharLit (c : Char)
  | Results (rs : List Expr)

/-- The value `fun.Import`. -/
structure Import where
  Path : String := ""
  deriving DecidableEq, Repr

/-- The value `fun.Param`: a name with its atomic type, `Param{V: VarSpec{Name, Type}}`. -/
structure Param where
  Name : String
  Type_ : String
  deriving DecidableEq, Repr

/-- The interface `fun.FuncBody`: `fun.Single{Expr}` or `fun.Inline{Block}`. -/
inductive FuncBody where
  | Single (Expr : Expr)
  | Inline (Block : List String)

/-- The value `fun.FuncDecl`. `Results` holds atomic type names; `Body` is `none` while
the interface field is still nil. -/
structure FuncDecl where
  Name : String
  Params : List Param := []
  Results : List String := []
  Body : Option FuncBody := none

/-- The value `fun.Package`; a top level is a `fun.FuncDecl`, the only kind built. -/
structure Package where
  Name : String := ""
  Imports : List Import := []
  TopLevels : List FuncDecl := []

end Fun

/-! ## Errors and call outcomes -/

/-- The sentinel errors `strconv.ErrSyntax` and `strconv.ErrRange`. -/
inductive NumErrKind where
  | ErrSyntax | ErrRange
  deriving DecidableEq, Repr

/-- A non-nil Go `error`: the result of `fmt.Errorf` with its text, or a
`*strconv.NumError{Func, Num, Err}`. -/
inductive GoError where
  | Errorf (text : String)
  | NumError (Func : String) (Num : String) (Err : NumErrKind)
  deriving DecidableEq, Repr

/-- What a Go call of result type `(α, error)` does: `ok v` is `return v, nil`;
`fail v err` is `return v, err` with `err` non-nil, `v` being `none` when a nil
interface value is returned; `panic` is a run-time panic. -/
inductive Outcome (α : Type) where
  | ok (val : α)
  | fail (val : Option α) (err : GoError)
  | panic

/-! ## strings, strconv -/

namespace strings

/-- The call `strings.Trim(s, cutset)` for a cutset of one character `c`: every leading
and every trailing `c` is removed. -/
def Trim (s : String) (c : Char) : String :=
  ⟨((s.data.dropWhile (· == c)).reverse.dropWhile (· == c)).reverse⟩

end strings

namespace strconv

/-- The largest `uint64`. -/
def maxUint64 : Nat := 2 ^ 64 - 1

/-- The digit loop of `strconv.ParseUint(s, 10, 64)`, `n` being the value read so far:
a byte that is not a decimal digit is a syntax error (value 0); a value that no longer
fits 64 bits is a range error (value `maxUint64`). -/
def parseUintLoop : List Char → Nat → Nat × Option NumErrKind
  | [], n => (n, none)
  | c :: cs, n =>
    if '0' ≤ c ∧ c ≤ '9' then
      if n ≥ maxUint64 / 10 + 1 then (maxUint64, some .ErrRange)
      else if n * 10 + (c.toNat - '0'.toNat) > maxUint64 then (maxUint64, some .ErrRange)
      else parseUintLoop cs (n * 10 + (c.toNat - '0'.toNat))
    else (0, some .ErrSyntax)

/-- The call `strconv.ParseUint(s, 10, 64)` on the characters of `s`. -/
def ParseUint (s : List Char) : Nat × Option NumErrKind :=
  if s = [] then (0, some .ErrSyntax) else parseUintLoop s 0

/-- The call `strconv.Atoi(s)` with a 64-bit `int`, that is `ParseInt(s, 10, 0)` with the
error's `Func` set to `Atoi` (the fast path for short texts returns the same): an
optional sign, then `ParseUint`; a syntax error returns 0, a value outside the `int64`
range returns the nearest bound with a range error. -/
def Atoi (s : String) : Int × Option GoError :=
  if s.data = [] then (0, some (.NumError "Atoi" s .ErrSyntax))
  else
    let neg : Bool := s.data.head? = some '-'
    let digits : List Char :=
      if s.data.head? = some '+' ∨ s.data.head? = some '-' then s.data.tail else s.data
    match ParseUint digits with
    | (_, some .ErrSyntax) => (0, some (.NumError "Atoi" s .ErrSyntax))
    | (un, _) =>
      if !neg ∧ un ≥ 2 ^ 63 then (2 ^ 63 - 1, some (.NumError "Atoi" s .ErrRange))
      else if neg ∧ un > 2 ^ 63 then (-(2 ^ 63), some (.NumError "Atoi" s .ErrRange))
      else (if neg then -(un : Int) else (un : Int), none)

end strconv

/-! ## The translator -/

namespace translate

/-- The value handed to `errorWithAST` as `obj interface{}`: a source node, a resolved
object, or a target expression. -/
inductive Node where
  | expr (e : ast.Expr)
  | stmt (s : ast.Stmt)
  | funcDecl (d : ast.FuncDecl)
  | object (o : ast.Object)
  | funExpr (e : Fun.Expr)

/-- The translator `funC`. In the source it holds the file set `fset`, which is only
handed to the two printers; here it holds those printers applied to the file set, and
the float parser:
* `astFprint obj` is the text `ast.Fprint(&buf, fset, obj, ast.NotNilFilter)` writes;
* `printerFprint stmt` is the text `printer.Fprint(&buf, fset, stmt)` writes;
* `ParseFloat s` is `strconv.ParseFloat(s, 64)`. -/
structure funC where
  astFprint : Node → String
  printerFprint : ast.Stmt → String
  ParseFloat : String → Fun.Float64 × Option GoError

/-- The method `errorWithAST`: `fmt.Errorf("%s:\n%s", message, dump)`. -/
def funC.errorWithAST (conv : funC) (message : String) (obj : Node) : GoError :=
  .Errorf (message ++ ":\n" ++ conv.astFprint obj)

/-- The helper `identToString`. -/
def identToString (ident : ast.Ident) : String :=
  ident.Name

mutual
/-- The method `Expression`: converts a Go expression to a Fun one. -/
def Expression (conv : funC) : ast.Expr → Outcome Fun.Expr
  | .Ident ex =>
    match ex.Obj with
    | none =>
      .fail none (conv.errorWithAST "Ident with empty Obj is not supported" (.expr (.Ident ex)))
    | some obj =>
      match obj.Kind with
      | .Var => .ok (.Var ex.Name)
      | _ => .fail none (conv.errorWithAST "unsupported Obj kind" (.object obj))
  | .BinaryExpr X Op Y =>
    match Expression conv X with
    | .panic => .panic
    | .fail _ err => .fail none err
    | .ok x =>
      match Expression conv Y with
      | .panic => .panic
      | .fail _ err => .fail none err
      | .ok y => .ok (.BinaryOp x Op.string y)
  | .SelectorExpr X Sel =>
    match X with
    | .Ident x => .ok (.FuncName ⟨identToString x ++ "." ++ identToString Sel⟩)
    | x => .fail none (conv.errorWithAST "argument type not supported" (.expr x))
  | .CallExpr Fun_ Args =>
    match Expression conv Fun_ with
    | .panic => .panic
    | .fail _ err => .fail none err
    | .ok e =>
      match e with
      | .FuncName name =>
        match ExpressionList conv Args with
        | .panic => .panic
        | .fail _ err => .fail none err
        | .ok args => .ok (.Application name args)
      | e => .fail none (conv.errorWithAST "expected FunctionVal but got" (.funExpr e))
  | .BasicLit ex =>
    match ex.Kind with
    | .INT =>
      match strconv.Atoi ex.Value with
      | (x, none) => .ok (.IntegerLit x)
      | (x, some err) => .fail (some (.IntegerLit x)) err
    | .FLOAT =>
      match conv.ParseFloat ex.Value with
      | (x, none) => .ok (.DoubleLit x)
      | (x, some err) => .fail (some (.DoubleLit x)) err
    | .STRING => .ok (.StringLit (strings.Trim ex.Value '"'))
    | .CHAR =>
      match (strings.Trim ex.Value '\'').data with
      | [] => .panic
      | r :: _ => .ok (.CharLit r)
    | _ => .fail none (conv.errorWithAST "unexpected literal type" (.expr (.BasicLit ex)))
  | ex => .fail none (conv.errorWithAST "Expr type not supported" (.expr ex))
/-- The loop `for _, e := range list` that converts each expression in turn through
`Expression`, appends the result, and returns `nil, err` at the first error (the
argument loop of a call, and the loop over the results of a return). -/
def ExpressionList (conv : funC) : List ast.Expr → Outcome (List Fun.Expr)
  | [] => .ok []
  | aex :: rest =>
    match Expression conv aex with
    | .panic => .panic
    | .fail _ err => .fail none err
    | .ok arg =>
      match ExpressionList conv rest with
      | .panic => .panic
      | .fail _ err => .fail none err
      | .ok args => .ok (arg :: args)
end

/-- The method `Statement`: converts a Go statement to a Fun expression. -/
def Statement (conv : funC) : ast.Stmt → Outcome Fun.Expr
  | .ReturnStmt Results =>
    match Results with
    | [] =>
      .fail none (conv.errorWithAST "result list of zero length is not supported"
        (.stmt (.ReturnStmt [])))
    | [r] =>
      match Expression conv r with
      | .panic => .panic
      | .fail _ err => .fail none err
      | .ok result => .ok result
    | rs =>
      match ExpressionList conv rs with
      | .panic => .panic
      | .fail _ err => .fail none err
      | .ok result => .ok (.Results result)
  | .ExprStmt X =>
    match Expression conv X with
    | .panic => .panic
    | .fail _ err => .fail none err
    | .ok result => .ok result
  | st => .fail none (conv.errorWithAST "ast.Stmt type not supported" (.stmt st))

/-- The method `Import`: converts a Go import to a Fun one. -/
def Import (conv : funC) (imp : ast.ImportSpec) : Outcome Fun.Import :=
  let result : Fun.Import := {}
  match Expression conv (.BasicLit imp.Path) with
  | .panic => .panic
  | .fail _ err => .fail (some result) err
  | .ok ex =>
    match ex with
    | .StringLit s => .ok { result with Path := s }
    | _ =>
      .fail (some result)
        (conv.errorWithAST "not a string or char literal" (.expr (.BasicLit imp.Path)))

/-- The parameter loop of `Function` (`for _, p := range fd.Type.Params.List`), `fn`
being the declaration built so far: a group whose type is not an `*ast.Ident` returns
`fn` with an error; otherwise one `Param` is appended for each name of the group. -/
def paramsLoop (conv : funC) : List ast.Field → Fun.FuncDecl → Outcome Fun.FuncDecl
  | [], fn => .ok fn
  | p :: rest, fn =>
    match p.Type_ with
    | .Ident ex =>
      paramsLoop conv rest
        { fn with Params := fn.Params ++ p.Names.map (fun n => ⟨identToString n, identToString ex⟩) }
    | t => .fail (some fn) (conv.errorWithAST "not supported type" (.expr t))

/-- The result loop of `Function` (`for _, p := range fd.Type.Results.List`): the type
assertion `p.Type.(*ast.Ident)` is unchecked, so a type that is not an identifier
panics; otherwise the type name is appended. -/
def resultsLoop : List ast.Field → Fun.FuncDecl → Outcome Fun.FuncDecl
  | [], fn => .ok fn
  | p :: rest, fn =>
    match p.Type_ with
    | .Ident ex => resultsLoop rest { fn with Results := fn.Results ++ [identToString ex] }
    | _ => .panic

/-- The results part of `Function`: skipped when `fd.Type.Results` is nil. -/
def functionResults (fd : ast.FuncDecl) (fn : Fun.FuncDecl) : Outcome Fun.FuncDecl :=
  match fd.Type_.Results with
  | none => .ok fn
  | some results => resultsLoop results.List fn

/-- The body part of `Function`, `fn` holding the name, parameters and results. -/
def functionBody (conv : funC) (fd : ast.FuncDecl) (fn : Fun.FuncDecl) : Outcome Fun.FuncDecl :=
  match fd.Body with
  | none =>
    .fail (some fn) (conv.errorWithAST "empty function body is not supported" (.funcDecl fd))
  | some body =>
    match body.List with
    | [s] =>
      match Statement conv s with
      | .panic => .panic
      | .fail _ err => .fail (some fn) err
      | .ok stmt => .ok { fn with Body := some (.Single stmt) }
    | stmts => .ok { fn with Body := some (.Inline (stmts.map conv.printerFprint)) }

/-- The method `Function`: converts a Go function declaration to the Fun one. -/
def Function (conv : funC) (fd : ast.FuncDecl) : Outcome Fun.FuncDecl :=
  match paramsLoop conv fd.Type_.Params.List { Name := identToString fd.Name } with
  | .panic => .panic
  | .fail fn err => .fail fn err
  | .ok fn =>
    match functionResults fd fn with
    | .panic => .panic
    | .fail fn err => .fail fn err
    | .ok fn => functionBody conv fd fn

/-- The import loop of `Package` (`for _, imp := range src.Imports`), `pack` being the
package built so far. -/
def importsLoop (conv : funC) : List ast.ImportSpec → Fun.Package → Outcome Fun.Package
  | [], pack => .ok pack
  | imp :: rest, pack =>
    match Import conv imp with
    | .panic => .panic
    | .fail _ err => .fail (some pack) err
    | .ok funImp => importsLoop conv rest { pack with Imports := pack.Imports ++ [funImp] }

/-- The declaration loop of `Package` (`for _, gd := range src.Decls`): only a
`*ast.FuncDecl` has a case in the type switch. -/
def declsLoop (conv : funC) : List ast.Decl → Fun.Package → Outcome Fun.Package
  | [], pack => .ok pack
  | .FuncDecl d :: rest, pack =>
    match Function conv d with
    | .panic => .panic
    | .fail _ err => .fail (some pack) err
    | .ok fn => declsLoop conv rest { pack with TopLevels := pack.TopLevels ++ [fn] }
  | _ :: rest, pack => declsLoop conv rest pack

/-- The method `Package`: converts a Go `ast.File` to a Fun package. -/
def Package (conv : funC) (src : ast.File) : Outcome Fun.Package :=
  match importsLoop conv src.Imports { Name := identToString src.Name } with
  | .panic => .panic
  | .fail pack err => .fail pack err
  | .ok pack => declsLoop conv src.Decls pack

end translate

/-! ## Vocabulary of the specification -/

namespace translate

/-- How a conversion ended, the returned value left out: it converted, returned an
error, or panicked. -/
inductive Verdict where
  | converts
  | error (err : GoError)
  | crashes
  deriving DecidableEq, Repr

/-- The verdict of an outcome. -/
def verdict {α : Type} : Outcome α → Verdict
  | .ok _ => .converts
  | .fail _ err => .error err
  | .panic => .crashes

/-- A type expression is a simple identifier. -/
def isIdent : ast.Expr → Bool
  | .Ident _ => true
  | _ => false

/-- The entries of a declaration list that are function declarations, in order. -/
def funcDecls : List ast.Decl → List ast.FuncDecl
  | [] => []
  | .FuncDecl d :: rest => d :: funcDecls rest
  | _ :: rest => funcDecls rest

/-- The params one parameter group with an identifier type contributes: one per name,
in order, all of that type. -/
def groupParams (p : ast.Field) : List Fun.Param :=
  match p.Type_ with
  | .Ident T => p.Names.map (fun n => ⟨n.Name, T.Name⟩)
  | _ => []

/-- The flattening of a list of parameter groups. -/
def flattenParams (groups : List ast.Field) : List Fun.Param :=
  (groups.map groupParams).flatten

/-- The type names of a list of result fields, one per field with an identifier type. -/
def resultTypes : List ast.Field → List String
  | [] => []
  | p :: rest =>
    match p.Type_ with
    | .Ident T => T.Name :: resultTypes rest
    | _ => resultTypes rest

/-- The result fields of a function declaration (none when `Results` is nil). -/
def resultFields (fd : ast.FuncDecl) : List ast.Field :=
  match fd.Type_.Results with
  | none => []
  | some results => results.List

/-- The verdicts of the elements `Package` visits, in traversal order: every import,
then every function declaration. -/
def elementVerdicts (conv : funC) (src : ast.File) : List Verdict :=
  src.Imports.map (fun imp => verdict (Import conv imp)) ++
    (funcDecls src.Decls).map (fun d => verdict (Function conv d))

/-- Sequential conversion of a list by `f`, stopping at the first element that does not
convert: the results of the elements converted before the stop, and the verdict of the
stop (`converts` when every element converted). -/
def convertRun {α β : Type} (f : α → Outcome β) : List α → List β × Verdict
  | [] => ([], .converts)
  | a :: rest =>
    match f a with
    | .ok b => ((b :: (convertRun f rest).1), (convertRun f rest).2)
    | .fail _ err => ([], .error err)
    | .panic => ([], .crashes)

/-- The first verdict of a list that is not `converts`; `converts` when there is none. -/
def firstStop : List Verdict → Verdict
  | [] => .converts
  | .converts :: rest => firstStop rest
  | v :: _ => v

/-- The error text opens with the reason `message`, followed by a colon, a line break
and a dump. -/
def hasReason (err : GoError) (message : String) : Prop :=
  ∃ dump : String, err = .Errorf (message ++ ":\n" ++ dump)

/-! ## Sample inputs (the trees of `translate_test.go`) -/

/-- A translator whose printers return fixed texts, and whose float parser knows the
literal `9.99`. -/
def sampleConv : funC where
  astFprint := fun _ => "<ast>"
  printerFprint := fun
    | .AssignStmt _ _ _ => "line := \"Hello World!\""
    | .ExprStmt _ => "fmt.Fprintln(io.Discard, line)"
    | _ => "<stmt>"
  ParseFloat := fun s =>
    if s = "9.99" then (⟨0x4023fae147ae147b⟩, none)
    else (⟨0⟩, some (.NumError "ParseFloat" s .ErrSyntax))

/-- A plain identifier without a resolved object. -/
def name (s : String) : ast.Ident := { Name := s }

/-- An identifier resolved to a variable. -/
def boundVar (s : String) : ast.Ident := { Name := s, Obj := some ⟨.Var, s⟩ }

/-- The declaration `func inc(val int) int { return val + 1 }`. -/
def incDecl : ast.FuncDecl where
  Name := name "inc"
  Type_ := {
    Params := { List := [{ Names := [boundVar "val"], Type_ := .Ident (name "int") }] }
    Results := some { List := [{ Type_ := .Ident (name "int") }] } }
  Body := some { List := [.ReturnStmt
    [.BinaryExpr (.Ident (boundVar "val")) .ADD (.BasicLit ⟨.INT, "1"⟩)]] }

/-- The declaration `func print42() { fmt.Println(42) }`. -/
def print42Decl : ast.FuncDecl where
  Name := name "print42"
  Body := some { List := [.ExprStmt
    (.CallExpr (.SelectorExpr (.Ident (name "fmt")) (name "Println")) [.BasicLit ⟨.INT, "42"⟩])] }

/-- The statement `line := "Hello World!"`. -/
def lineStmt : ast.Stmt :=
  .AssignStmt [.Ident (boundVar "line")] .DEFINE [.BasicLit ⟨.STRING, "\"Hello World!\""⟩]

/-- The statement `fmt.Fprintln(io.Discard, line)`. -/
def fprintlnStmt : ast.Stmt :=
  .ExprStmt (.CallExpr (.SelectorExpr (.Ident (name "fmt")) (name "Fprintln"))
    [.SelectorExpr (.Ident (name "io")) (name "Discard"), .Ident (boundVar "line")])

/-- The declaration `func main() { line := "Hello World!"; fmt.Fprintln(io.Discard, line) }`. -/
def mainDecl : ast.FuncDecl where
  Name := name "main"
  Body := some { List := [lineStmt, fprintlnStmt] }

/-- The source file of `TestFun_Package`: imports `"fmt"` and `"io"`, then `inc`,
`print42` and `main`. -/
def fullSource : ast.File where
  Name := name "main"
  Imports := [{ Path := ⟨.STRING, "\"fmt\""⟩ }, { Path := ⟨.STRING, "\"io\""⟩ }]
  Decls := [
    .GenDecl .IMPORT [.ImportSpec { Path := ⟨.STRING, "\"fmt\""⟩ },
      .ImportSpec { Path := ⟨.STRING, "\"io\""⟩ }],
    .FuncDecl incDecl, .FuncDecl print42Decl, .FuncDecl mainDecl]

/-- The declaration `func forwardDeclared() bool`, without a body. -/
def forwardDeclared : ast.FuncDecl where
  Name := name "forwardDeclared"
  Type_ := { Results := some { List := [{ Type_ := .Ident (name "bool") }] } }

/-- The declaration `func deref(p *int)`, without a body: its parameter type is a
pointer type. -/
def derefDecl : ast.FuncDecl where
  Name := name "deref"
  Type_ := {
    Params := { List := [{ Names := [boundVar "p"], Type_ := .StarExpr (.Ident (name "int")) }] } }

/-- The declaration `func fresh() *int { return nil }`: its result type is a pointer
type. -/
def freshDecl : ast.FuncDecl where
  Name := name "fresh"
  Type_ := { Results := some { List := [{ Type_ := .StarExpr (.Ident (name "int")) }] } }
  Body := some { List := [.ReturnStmt [.Ident (name "nil")]] }

/-- A file `package main` importing `"fmt"` and then the path literal `1`, followed by
the declaration `inc`. -/
def brokenImportSource : ast.File where
  Name := name "main"
  Imports := [{ Path := ⟨.STRING, "\"fmt\""⟩ }, { Path := ⟨.INT, "1"⟩ }]
  Decls := [.FuncDecl incDecl]

/-- A file whose only import has the path literal `1`, followed by the declarations
`forwardDeclared` and `deref`: the import and both functions fail to convert. -/
def maskedSource : ast.File where
  Name := name "foo"
  Imports := [{ Path := ⟨.INT, "1"⟩ }]
  Decls := [.FuncDecl forwardDeclared, .FuncDecl derefDecl]

/-- A file without imports whose declarations are `forwardDeclared` and `deref`: both
functions fail to convert. -/
def twoFailuresSource : ast.File where
  Name := name "foo"
  Decls := [.FuncDecl forwardDeclared, .FuncDecl derefDecl]

/-- The statement ``return 'a', 9.99``. -/
def tupleReturn : ast.Stmt :=
  .ReturnStmt [.BasicLit ⟨.CHAR, "'a'"⟩, .BasicLit ⟨.FLOAT, "9.99"⟩]

/-! ## Vocabulary for expressions and literals -/

/-- A character is a decimal digit, `0` to `9`. -/
def isDecimalDigit (c : Char) : Bool :=
  decide ('0' ≤ c ∧ c ≤ '9')

/-- The base-10 value of a string of decimal digits read from the left, `n` being the
value of the digits read before. -/
def decimalValue : List Char → Nat → Nat
  | [], n => n
  | c :: cs, n => decimalValue cs (n * 10 + (c.toNat - '0'.toNat))

/-- A text is a base-10 numeral: a non-empty string of decimal digits. -/
def isNumeral (cs : List Char) : Bool :=
  !cs.isEmpty && cs.all isDecimalDigit

/-- The text without its leading sign `+` or `-`, when it has one. -/
def dropSign (cs : List Char) : List Char :=
  if cs.head? = some '+' ∨ cs.head? = some '-' then cs.tail else cs

/-- The literal kinds `Expression` has a case for: INT, FLOAT, STRING and CHAR. -/
def isValueKind : token.Token → Bool
  | .INT | .FLOAT | .STRING | .CHAR => true
  | _ => false

/-- The expression nodes `Expression` has a case for: identifier, binary, selector,
call and basic literal. -/
def hasExpressionCase : ast.Expr → Bool
  | .Ident _ | .BinaryExpr _ _ _ | .SelectorExpr _ _ | .CallExpr _ _ | .BasicLit _ => true
  | _ => false

/-- The statement nodes `Statement` has a case for: return and expression statement. -/
def hasStatementCase : ast.Stmt → Bool
  | .ReturnStmt _ | .ExprStmt _ => true
  | _ => false

/-- An expression is a selector whose base is a plain identifier, `base.member`. -/
def isQualifiedName : ast.Expr → Bool
  | .SelectorExpr (.Ident _) _ => true
  | _ => false

/-- The import specification `import f "fmt"`, with the alias `f`. -/
def aliasedImport : ast.ImportSpec where
  Name := some (name "f")
  Path := ⟨.STRING, "\"fmt\""⟩

/-- A file `package main` whose only import is `import f "fmt"`. -/
def aliasedSource : ast.File where
  Name := name "main"
  Imports := [aliasedImport]

/-- A file `package main` whose only import is `import f "fmt"` and whose only
declaration is `func hello() \x7b f.Println(42) \x7d`, calling through the alias. -/
def aliasedCallSource : ast.File where
  Name := name "main"
  Imports := [aliasedImport]
  Decls := [.FuncDecl {
    Name := name "hello"
    Body := some { List := [.ExprStmt
      (.CallExpr (.SelectorExpr (.Ident (name "f")) (name "Println"))
        [.BasicLit ⟨.INT, "42"⟩])] } }]

/-- The selector `fmt.Println` of `TestFun_Expression_selector`. -/
def printlnSelector : ast.Expr :=
  .SelectorExpr (.Ident (name "fmt")) (name "Println")

/-- The call `fmt.Println(42)`. -/
def printlnCall : ast.Expr :=
  .CallExpr printlnSelector [.BasicLit ⟨.INT, "42"⟩]

/-- The call `inc(1)`, the callee being a bare identifier resolved to a function. -/
def incCall : ast.Expr :=
  .CallExpr (.Ident { Name := "inc", Obj := some ⟨.Fun, "inc"⟩ }) [.BasicLit ⟨.INT, "1"⟩]

/-- The expression `val + 1` of `TestFun_Expression_binary`. -/
def valPlusOne : ast.Expr :=
  .BinaryExpr (.Ident (boundVar "val")) .ADD (.BasicLit ⟨.INT, "1"⟩)

/-- The literal of `TestFun_Expression_brokenLiteral_testError`: kind `break`, text
`SNAKE!`. -/
def snakeLit : ast.BasicLit :=
  ⟨.BREAK, "SNAKE!"⟩

/-- The string literal `"\""`: a quote, a backslash, a quote, a quote. -/
def quoteLit : ast.BasicLit :=
  ⟨.STRING, "\"\\\"\""⟩

/-- The character literal with nothing between its quotes. -/
def emptyCharLit : ast.BasicLit :=
  ⟨.CHAR, "''"⟩

/-- The declaration `func pair(a, b int) (c, d int) \x7b return a, b \x7d`. -/
def pairDecl : ast.FuncDecl where
  Name := name "pair"
  Type_ := {
    Params := { List := [{ Names := [boundVar "a", boundVar "b"], Type_ := .Ident (name "int") }] }
    Results := some { List := [{ Names := [boundVar "c", boundVar "d"],
                                 Type_ := .Ident (name "int") }] } }
  Body := some { List := [.ReturnStmt [.Ident (boundVar "a"), .Ident (boundVar "b")]] }

end translate

/-! ## Sequential conversion -/

namespace translate

theorem convertRun_verdict {α β : Type} (f : α → Outcome β) (l : List α) :
    (convertRun f l).2 = firstStop (l.map (fun a => verdict (f a))) := by
  induction l with
  | nil => rfl
  | cons a rest ih =>
    cases h : f a <;> simp [convertRun, firstStop, verdict, h, ih]

theorem convertRun_forall₂ {α β : Type} (f : α → Outcome β) (l : List α) :
    List.Forall₂ (fun a b => f a = .ok b) (l.take (convertRun f l).1.length) (convertRun f l).1 := by
  induction l with
  | nil => simp [convertRun]
  | cons a rest ih =>
    cases h : f a <;> simp [convertRun, h, ih]

theorem convertRun_stop {α β : Type} (f : α → Outcome β) (l : List α) :
    ((convertRun f l).2 = .converts ∧ (convertRun f l).1.length = l.length) ∨
    (∃ a, l[(convertRun f l).1.length]? = some a ∧ verdict (f a) = (convertRun f l).2 ∧
      (convertRun f l).2 ≠ .converts) := by
  induction l with
  | nil => simp [convertRun]
  | cons a rest ih =>
    cases h : f a <;> simp [convertRun, h, verdict]
    exact ih

theorem firstStop_converts_iff (vs : List Verdict) :
    firstStop vs = .converts ↔ ∀ v ∈ vs, v = .converts := by
  induction vs with
  | nil => simp [firstStop]
  | cons v rest ih => cases v <;> simp [firstStop, ih]

theorem firstStop_eq_iff (vs : List Verdict) (w : Verdict) (hw : w ≠ .converts) :
    firstStop vs = w ↔
      ∃ pre post, vs = pre ++ w :: post ∧ ∀ v ∈ pre, v = .converts := by
  induction vs with
  | nil => simp [firstStop, Ne.symm hw]
  | cons v rest ih =>
    constructor
    · intro h
      by_cases hv : v = .converts
      · subst hv
        simp only [firstStop] at h
        obtain ⟨pre, post, h1, h2⟩ := ih.mp h
        exact ⟨.converts :: pre, post, by simp [h1], by simpa using h2⟩
      · have : firstStop (v :: rest) = v := by cases v <;> simp_all [firstStop]
        rw [this] at h
        exact ⟨[], rest, by simp [h], by simp⟩
    · rintro ⟨pre, post, h1, h2⟩
      cases pre with
      | nil =>
        simp only [List.nil_append, List.cons.injEq] at h1
        obtain ⟨rfl, -⟩ := h1
        cases v <;> simp_all [firstStop]
      | cons p pre =>
        simp only [List.cons_append, List.cons.injEq] at h1
        obtain ⟨rfl, h1⟩ := h1
        have hp : v = .converts := h2 v (by simp)
        subst hp
        simp only [firstStop]
        exact ih.mpr ⟨pre, post, h1, fun v hv => h2 v (by simp [hv])⟩

theorem firstStop_append (a b : List Verdict) :
    firstStop (a ++ b) = if firstStop a = .converts then firstStop b else firstStop a := by
  induction a with
  | nil => simp [firstStop]
  | cons v rest ih => cases v <;> simp [firstStop, ih]

theorem importsLoop_eq (conv : funC) (imps : List ast.ImportSpec) (pack : Fun.Package) :
    importsLoop conv imps pack =
      match (convertRun (Import conv) imps).2 with
      | .converts =>
        .ok { pack with Imports := pack.Imports ++ (convertRun (Import conv) imps).1 }
      | .error err =>
        .fail (some { pack with Imports := pack.Imports ++ (convertRun (Import conv) imps).1 }) err
      | .crashes => .panic := by
  induction imps generalizing pack with
  | nil => simp [importsLoop, convertRun]
  | cons imp rest ih =>
    cases h : Import conv imp <;> simp [importsLoop, convertRun, h, ih]

theorem declsLoop_eq (conv : funC) (decls : List ast.Decl) (pack : Fun.Package) :
    declsLoop conv decls pack =
      match (convertRun (Function conv) (funcDecls decls)).2 with
      | .converts =>
        .ok { pack with
          TopLevels := pack.TopLevels ++ (convertRun (Function conv) (funcDecls decls)).1 }
      | .error err =>
        .fail (some { pack with
          TopLevels := pack.TopLevels ++ (convertRun (Function conv) (funcDecls decls)).1 }) err
      | .crashes => .panic := by
  induction decls generalizing pack with
  | nil => simp [declsLoop, convertRun, funcDecls]
  | cons d rest ih =>
    cases d with
    | FuncDecl d =>
      cases h : Function conv d <;> simp [declsLoop, convertRun, funcDecls, h, ih]
    | BadDecl => simp [declsLoop, funcDecls, ih]
    | GenDecl t sp => simp [declsLoop, funcDecls, ih]

theorem funcDecls_map_FuncDecl (ds : List ast.FuncDecl) :
    funcDecls (ds.map .FuncDecl) = ds := by
  induction ds with
  | nil => rfl
  | cons d rest ih => simp [funcDecls, ih]

theorem Package_eq (conv : funC) (src : ast.File) :
    Package conv src =
      match (convertRun (Import conv) src.Imports).2 with
      | .converts =>
        match (convertRun (Function conv) (funcDecls src.Decls)).2 with
        | .converts =>
          .ok { Name := src.Name.Name, Imports := (convertRun (Import conv) src.Imports).1,
                TopLevels := (convertRun (Function conv) (funcDecls src.Decls)).1 }
        | .error err =>
          .fail (some { Name := src.Name.Name, Imports := (convertRun (Import conv) src.Imports).1,
                        TopLevels := (convertRun (Function conv) (funcDecls src.Decls)).1 }) err
        | .crashes => .panic
      | .error err =>
        .fail (some { Name := src.Name.Name, Imports := (convertRun (Import conv) src.Imports).1,
                      TopLevels := [] }) err
      | .crashes => .panic := by
  unfold Package
  rw [importsLoop_eq]
  cases h : (convertRun (Import conv) src.Imports).2 <;> simp [identToString]
  rw [declsLoop_eq]
  cases h2 : (convertRun (Function conv) (funcDecls src.Decls)).2 <;> simp

theorem Package_verdict (conv : funC) (src : ast.File) :
    verdict (Package conv src) = firstStop (elementVerdicts conv src) := by
  rw [Package_eq, elementVerdicts, firstStop_append, ← convertRun_verdict, ← convertRun_verdict]
  cases h : (convertRun (Import conv) src.Imports).2 <;> simp [verdict]
  cases h2 : (convertRun (Function conv) (funcDecls src.Decls)).2 <;> simp [verdict]

/-! ## Package -/

/-- C1. On every source file, `Package` gives the same outcome when the declarations
that are not function declarations are removed; and when it succeeds, the result has
the name of the source package identifier, `Imports` is the list of the conversions of
`src.Imports` one by one in the same order, and `TopLevels` is the list of the
conversions, in the same order, of exactly the function declarations of `src.Decls`. -/
theorem Package_ok_in_source_order (conv : funC) (src : ast.File) :
    Package conv { src with Decls := (funcDecls src.Decls).map .FuncDecl } = Package conv src ∧
    ∀ p, Package conv src = .ok p →
      p.Name = src.Name.Name ∧
      List.Forall₂ (fun imp r => Import conv imp = .ok r) src.Imports p.Imports ∧
      List.Forall₂ (fun d fn => Function conv d = .ok fn) (funcDecls src.Decls) p.TopLevels := by
  refine ⟨?_, ?_⟩
  · rw [Package_eq, Package_eq]
    simp only [funcDecls_map_FuncDecl]
  · intro p hp
    rw [Package_eq] at hp
    have hi := convertRun_forall₂ (Import conv) src.Imports
    have hd := convertRun_forall₂ (Function conv) (funcDecls src.Decls)
    rcases convertRun_stop (Import conv) src.Imports with ⟨h1, hl1⟩ | ⟨a, -, -, h1⟩
    · rcases convertRun_stop (Function conv) (funcDecls src.Decls) with ⟨h2, hl2⟩ | ⟨b, -, -, h2⟩
      · rw [h1, h2] at hp
        simp only [Outcome.ok.injEq] at hp
        subst hp
        rw [hl1, List.take_length] at hi
        rw [hl2, List.take_length] at hd
        exact ⟨rfl, hi, hd⟩
      · rw [h1] at hp
        cases h3 : (convertRun (Function conv) (funcDecls src.Decls)).2 <;> simp_all
    · cases h3 : (convertRun (Import conv) src.Imports).2 <;> simp_all

/-- Witness for C1: the source file of `TestFun_Package` translates to the expected
package, whose parts are the conversions of its two imports and three functions. -/
theorem Package_ok_in_source_order_witness :
    Package sampleConv fullSource = .ok
      { Name := "main", Imports := [⟨"fmt"⟩, ⟨"io"⟩],
        TopLevels := [
          { Name := "inc", Params := [⟨"val", "int"⟩], Results := ["int"],
            Body := some (.Single (.BinaryOp (.Var "val") "+" (.IntegerLit 1))) },
          { Name := "print42",
            Body := some (.Single (.Application ⟨"fmt.Println"⟩ [.IntegerLit 42])) },
          { Name := "main",
            Body := some (.Inline ["line := \"Hello World!\"", "fmt.Fprintln(io.Discard, line)"]) }] } ∧
    List.Forall₂ (fun imp r => Import sampleConv imp = .ok r) fullSource.Imports [⟨"fmt"⟩, ⟨"io"⟩] :=
  ⟨rfl, ((Package_ok_in_source_order sampleConv fullSource).2 _ rfl).2.1⟩

end translate

namespace translate

/-- C2, counterexample. On a file `package main` whose first import converts and whose
second import fails, the package returned alongside the error is not the empty value: it
carries the name `main` and the import `fmt`. -/
theorem Package_error_value_not_empty :
    Package sampleConv brokenImportSource =
        .fail (some { Name := "main", Imports := [⟨"fmt"⟩], TopLevels := [] })
          (.Errorf "not a string or char literal:\n<ast>") ∧
      ({ Name := "main", Imports := [⟨"fmt"⟩], TopLevels := [] } : Fun.Package) ≠ {} := by
  refine ⟨rfl, ?_⟩
  intro h
  have := congrArg Fun.Package.Name h
  exact absurd this (by decide)

/-- C2, amended. Whenever `Package` returns an error, the value returned alongside it is
the package built up to the failure: it has the source package name; its `Imports` are
the conversions, in order, of the imports that precede the failure and its `TopLevels`
the conversions, in order, of the function declarations that precede it; and the error
is that of the next element: the next import, with no top level built yet, or, with
every import converted, the next function declaration. -/
theorem Package_error_value_built_so_far (conv : funC) (src : ast.File)
    (v : Option Fun.Package) (err : GoError) (h : Package conv src = .fail v err) :
    ∃ p, v = some p ∧ p.Name = src.Name.Name ∧
      List.Forall₂ (fun imp r => Import conv imp = .ok r)
        (src.Imports.take p.Imports.length) p.Imports ∧
      List.Forall₂ (fun d fn => Function conv d = .ok fn)
        ((funcDecls src.Decls).take p.TopLevels.length) p.TopLevels ∧
      ((p.TopLevels = [] ∧
          ∃ imp, src.Imports[p.Imports.length]? = some imp ∧
            verdict (Import conv imp) = .error err) ∨
        (p.Imports.length = src.Imports.length ∧
          ∃ d, (funcDecls src.Decls)[p.TopLevels.length]? = some d ∧
            verdict (Function conv d) = .error err)) := by
  rw [Package_eq] at h
  have hi := convertRun_forall₂ (Import conv) src.Imports
  have hd := convertRun_forall₂ (Function conv) (funcDecls src.Decls)
  rcases convertRun_stop (Import conv) src.Imports with ⟨h1, hl1⟩ | ⟨a, ha, hva, h1⟩
  · rcases convertRun_stop (Function conv) (funcDecls src.Decls) with ⟨h2, hl2⟩ | ⟨b, hb, hvb, h2⟩
    · rw [h1, h2] at h
      simp at h
    · rw [h1] at h
      cases h3 : (convertRun (Function conv) (funcDecls src.Decls)).2 with
      | converts => exact absurd h3 h2
      | crashes => rw [h3] at h; simp at h
      | error e =>
        rw [h3] at h
        simp only [Outcome.fail.injEq] at h
        obtain ⟨hv, he⟩ := h
        subst he
        refine ⟨_, hv.symm, rfl, hi, hd, Or.inr ⟨hl1, b, hb, ?_⟩⟩
        rw [hvb, h3]
  · cases h3 : (convertRun (Import conv) src.Imports).2 with
    | converts => exact absurd h3 h1
    | crashes => rw [h3] at h; simp at h
    | error e =>
      rw [h3] at h
      simp only [Outcome.fail.injEq] at h
      obtain ⟨hv, he⟩ := h
      subst he
      refine ⟨_, hv.symm, rfl, hi, ?_, Or.inl ⟨rfl, a, ha, ?_⟩⟩
      · simp
      · rw [hva, h3]

/-- Witness for the amended C2, on the file whose second import fails. -/
theorem Package_error_value_built_so_far_witness :
    ∃ p, some ({ Name := "main", Imports := [⟨"fmt"⟩], TopLevels := [] } : Fun.Package) = some p ∧
      p.Name = brokenImportSource.Name.Name ∧
      List.Forall₂ (fun imp r => Import sampleConv imp = .ok r)
        (brokenImportSource.Imports.take p.Imports.length) p.Imports ∧
      List.Forall₂ (fun d fn => Function sampleConv d = .ok fn)
        ((funcDecls brokenImportSource.Decls).take p.TopLevels.length) p.TopLevels ∧
      ((p.TopLevels = [] ∧
          ∃ imp, brokenImportSource.Imports[p.Imports.length]? = some imp ∧
            verdict (Import sampleConv imp) =
              .error (.Errorf "not a string or char literal:\n<ast>")) ∨
        (p.Imports.length = brokenImportSource.Imports.length ∧
          ∃ d, (funcDecls brokenImportSource.Decls)[p.TopLevels.length]? = some d ∧
            verdict (Function sampleConv d) =
              .error (.Errorf "not a string or char literal:\n<ast>"))) :=
  Package_error_value_built_so_far sampleConv brokenImportSource _ _ rfl

/-- C3. `Package` is fail-fast over the imports followed by the function declarations,
each list in source order: it succeeds exactly when every element converts, and it
returns the error `err` exactly when the first element that does not convert returns
`err` (every element before it converting, whatever the elements after it do). -/
theorem Package_fail_fast (conv : funC) (src : ast.File) :
    ((∃ p, Package conv src = .ok p) ↔ ∀ v ∈ elementVerdicts conv src, v = .converts) ∧
    (∀ err, (∃ v, Package conv src = .fail v err) ↔
      ∃ pre post, elementVerdicts conv src = pre ++ .error err :: post ∧
        ∀ v ∈ pre, v = .converts) := by
  have hv := Package_verdict conv src
  refine ⟨?_, fun err => ?_⟩
  · rw [← firstStop_converts_iff, ← hv]
    cases Package conv src <;> simp [verdict]
  · rw [← firstStop_eq_iff _ _ (by simp), ← hv]
    cases Package conv src <;> simp [verdict]

/-- Witness for C3: on a file whose import and whose two functions all fail, `Package`
returns the error of the import; without the import, that of the first function. -/
theorem Package_fail_fast_witness :
    (∃ v, Package sampleConv maskedSource =
      .fail v (.Errorf "not a string or char literal:\n<ast>")) ∧
    (∃ v, Package sampleConv twoFailuresSource =
      .fail v (.Errorf "empty function body is not supported:\n<ast>")) :=
  ⟨((Package_fail_fast sampleConv maskedSource).2 _).mpr
      ⟨[], [.error (.Errorf "empty function body is not supported:\n<ast>"),
        .error (.Errorf "not supported type:\n<ast>")], rfl, by simp⟩,
    ((Package_fail_fast sampleConv twoFailuresSource).2 _).mpr
      ⟨[], [.error (.Errorf "not supported type:\n<ast>")], rfl, by simp⟩⟩

end translate

/-! ## Function: parameters, results, body -/

namespace translate

theorem isIdent_iff (t : ast.Expr) : isIdent t = true ↔ ∃ id, t = .Ident id := by
  cases t <;> simp [isIdent]

theorem paramsLoop_ident (conv : funC) (ps : List ast.Field) (fn : Fun.FuncDecl)
    (h : ∀ p ∈ ps, isIdent p.Type_ = true) :
    paramsLoop conv ps fn = .ok { fn with Params := fn.Params ++ flattenParams ps } := by
  induction ps generalizing fn with
  | nil => simp [paramsLoop, flattenParams]
  | cons p rest ih =>
    obtain ⟨id, hid⟩ := (isIdent_iff _).mp (h p (by simp))
    rw [paramsLoop.eq_def]
    simp only [hid]
    rw [ih _ (fun q hq => h q (by simp [hq]))]
    simp [flattenParams, groupParams, hid, identToString]

theorem paramsLoop_not_ident (conv : funC) (pre : List ast.Field) (p : ast.Field)
    (post : List ast.Field) (fn : Fun.FuncDecl)
    (hpre : ∀ q ∈ pre, isIdent q.Type_ = true) (hp : isIdent p.Type_ = false) :
    paramsLoop conv (pre ++ p :: post) fn =
      .fail (some { fn with Params := fn.Params ++ flattenParams pre })
        (conv.errorWithAST "not supported type" (.expr p.Type_)) := by
  induction pre generalizing fn with
  | nil =>
    rw [List.nil_append, paramsLoop.eq_def]
    cases hT : p.Type_ <;> simp_all [isIdent, flattenParams]
  | cons q rest ih =>
    obtain ⟨id, hid⟩ := (isIdent_iff _).mp (hpre q (by simp))
    rw [List.cons_append, paramsLoop.eq_def]
    simp only [hid]
    rw [ih _ (fun r hr => hpre r (by simp [hr]))]
    simp [flattenParams, groupParams, hid, identToString]

theorem exists_first_not_ident (ps : List ast.Field)
    (h : ∃ p ∈ ps, isIdent p.Type_ = false) :
    ∃ pre p post, ps = pre ++ p :: post ∧ (∀ q ∈ pre, isIdent q.Type_ = true) ∧
      isIdent p.Type_ = false := by
  induction ps with
  | nil => simp at h
  | cons q rest ih =>
    by_cases hq : isIdent q.Type_ = true
    · obtain ⟨p, hp, hpi⟩ := h
      have hp2 : p ∈ rest := by
        rcases List.mem_cons.mp hp with rfl | h'
        · simp [hq] at hpi
        · exact h'
      obtain ⟨pre, x, post, h1, h2, h3⟩ := ih ⟨p, hp2, hpi⟩
      exact ⟨q :: pre, x, post, by simp [h1], by simpa [hq] using h2, h3⟩
    · exact ⟨[], q, rest, rfl, by simp, by simpa using hq⟩

theorem resultsLoop_ident (rs : List ast.Field) (fn : Fun.FuncDecl)
    (h : ∀ p ∈ rs, isIdent p.Type_ = true) :
    resultsLoop rs fn = .ok { fn with Results := fn.Results ++ resultTypes rs } := by
  induction rs generalizing fn with
  | nil => simp [resultsLoop, resultTypes]
  | cons p rest ih =>
    obtain ⟨id, hid⟩ := (isIdent_iff _).mp (h p (by simp))
    rw [resultsLoop.eq_def]
    simp only [hid]
    rw [ih _ (fun q hq => h q (by simp [hq]))]
    simp [resultTypes, hid, identToString]

theorem resultsLoop_not_ident (rs : List ast.Field) (fn : Fun.FuncDecl)
    (h : ∃ p ∈ rs, isIdent p.Type_ = false) :
    resultsLoop rs fn = .panic := by
  induction rs generalizing fn with
  | nil => simp at h
  | cons q rest ih =>
    by_cases hq : isIdent q.Type_ = true
    · obtain ⟨id, hid⟩ := (isIdent_iff _).mp hq
      rw [resultsLoop.eq_def]
      simp only [hid]
      apply ih
      obtain ⟨p, hp, hpi⟩ := h
      rcases List.mem_cons.mp hp with rfl | h'
      · simp [hq] at hpi
      · exact ⟨p, h', hpi⟩
    · rw [resultsLoop.eq_def]
      cases hT : q.Type_ <;> simp_all [isIdent]

theorem functionResults_ident (fd : ast.FuncDecl) (fn : Fun.FuncDecl)
    (h : ∀ p ∈ resultFields fd, isIdent p.Type_ = true) :
    functionResults fd fn = .ok { fn with Results := fn.Results ++ resultTypes (resultFields fd) } := by
  unfold functionResults
  unfold resultFields at h ⊢
  cases hr : fd.Type_.Results with
  | none => simp [resultTypes]
  | some results =>
    rw [hr] at h
    simpa using resultsLoop_ident results.List fn h

theorem functionResults_not_ident (fd : ast.FuncDecl) (fn : Fun.FuncDecl)
    (h : ∃ p ∈ resultFields fd, isIdent p.Type_ = false) :
    functionResults fd fn = .panic := by
  unfold functionResults
  unfold resultFields at h
  cases hr : fd.Type_.Results with
  | none => rw [hr] at h; simp at h
  | some results =>
    rw [hr] at h
    simpa using resultsLoop_not_ident results.List fn h

/-- With identifier types throughout, `Function` is its body part applied to the
declaration holding the name, the flattened parameters and the result types. -/
theorem Function_of_ident_types (conv : funC) (fd : ast.FuncDecl)
    (hp : ∀ p ∈ fd.Type_.Params.List, isIdent p.Type_ = true)
    (hr : ∀ p ∈ resultFields fd, isIdent p.Type_ = true) :
    Function conv fd =
      functionBody conv fd
        { Name := fd.Name.Name, Params := flattenParams fd.Type_.Params.List,
          Results := resultTypes (resultFields fd) } := by
  unfold Function
  rw [paramsLoop_ident conv _ _ hp]
  simp only []
  rw [functionResults_ident fd _ hr]
  simp [identToString]

theorem Function_param_not_ident (conv : funC) (fd : ast.FuncDecl)
    (h : ∃ p ∈ fd.Type_.Params.List, isIdent p.Type_ = false) :
    ∃ pre p post, fd.Type_.Params.List = pre ++ p :: post ∧
      (∀ q ∈ pre, isIdent q.Type_ = true) ∧ isIdent p.Type_ = false ∧
      Function conv fd =
        .fail (some { Name := fd.Name.Name, Params := flattenParams pre })
          (conv.errorWithAST "not supported type" (.expr p.Type_)) := by
  obtain ⟨pre, p, post, h1, h2, h3⟩ := exists_first_not_ident _ h
  refine ⟨pre, p, post, h1, h2, h3, ?_⟩
  unfold Function
  rw [h1, paramsLoop_not_ident conv pre p post _ h2 h3]
  simp [identToString]

theorem Function_result_not_ident (conv : funC) (fd : ast.FuncDecl)
    (hp : ∀ p ∈ fd.Type_.Params.List, isIdent p.Type_ = true)
    (h : ∃ p ∈ resultFields fd, isIdent p.Type_ = false) :
    Function conv fd = .panic := by
  unfold Function
  rw [paramsLoop_ident conv _ _ hp]
  simp only []
  rw [functionResults_not_ident fd _ h]

theorem functionBody_ok (conv : funC) (fd : ast.FuncDecl) (fn0 fn : Fun.FuncDecl)
    (h : functionBody conv fd fn0 = .ok fn) :
    ∃ b, fd.Body ≠ none ∧ fn = { fn0 with Body := some b } := by
  unfold functionBody at h
  cases hb : fd.Body with
  | none => simp [hb] at h
  | some body =>
    simp only [hb] at h
    split at h
    · split at h <;> simp at h
      exact ⟨_, by simp, h.symm⟩
    · simp at h
      exact ⟨_, by simp, h.symm⟩

end translate

namespace translate

theorem Function_no_body_not_ok (conv : funC) (fd : ast.FuncDecl) (hb : fd.Body = none)
    (fn : Fun.FuncDecl) : Function conv fd ≠ .ok fn := by
  unfold Function
  cases paramsLoop conv fd.Type_.Params.List { Name := identToString fd.Name } with
  | panic => simp
  | fail v e => simp
  | ok fn1 =>
    simp only []
    cases functionResults fd fn1 with
    | panic => simp
    | fail v e => simp
    | ok fn2 => simp [functionBody, hb]

theorem firstStop_mem (vs : List Verdict) : firstStop vs = .converts ∨ firstStop vs ∈ vs := by
  induction vs with
  | nil => simp [firstStop]
  | cons v rest ih =>
    cases v with
    | converts =>
      rcases ih with h | h
      · exact Or.inl (by simpa [firstStop] using h)
      · exact Or.inr (by simp [firstStop, h])
    | error e => simp [firstStop]
    | crashes => simp [firstStop]

theorem mem_funcDecls (d : ast.FuncDecl) (ds : List ast.Decl) :
    d ∈ funcDecls ds ↔ ast.Decl.FuncDecl d ∈ ds := by
  induction ds with
  | nil => simp [funcDecls]
  | cons x rest ih => cases x <;> simp [funcDecls, ih]

/-- C4. For every function declaration whose parameter and result types are simple
identifiers and whose body is present with a number of statements other than one,
`Function` succeeds with the declared name, the flattened parameters, the result types
and the body `Inline` whose block is the list of the re-printed texts of the body
statements, one per statement in source order; `Statement` takes no part in it. -/
theorem Function_inline_body (conv : funC) (fd : ast.FuncDecl) (body : ast.BlockStmt)
    (hp : ∀ p ∈ fd.Type_.Params.List, isIdent p.Type_ = true)
    (hr : ∀ p ∈ resultFields fd, isIdent p.Type_ = true)
    (hb : fd.Body = some body) (hn : body.List.length ≠ 1) :
    Function conv fd = .ok
      { Name := fd.Name.Name, Params := flattenParams fd.Type_.Params.List,
        Results := resultTypes (resultFields fd),
        Body := some (.Inline (body.List.map conv.printerFprint)) } := by
  rw [Function_of_ident_types conv fd hp hr]
  unfold functionBody
  simp only [hb]
  split
  · rename_i s hs
    simp [hs] at hn
  · rfl

/-- Witness for C4: `main` of `TestFun_Package` has a body of two statements, the first
an assignment that `Statement` rejects; `Function` returns their two texts inline. -/
theorem Function_inline_body_witness :
    Statement sampleConv lineStmt = .fail none (.Errorf "ast.Stmt type not supported:\n<ast>") ∧
    Function sampleConv mainDecl = .ok
      { Name := "main", Params := [], Results := [],
        Body := some (.Inline ["line := \"Hello World!\"", "fmt.Fprintln(io.Discard, line)"]) } :=
  ⟨rfl, Function_inline_body sampleConv mainDecl ⟨[lineStmt, fprintlnStmt]⟩
    (by simp [mainDecl]) (by simp [mainDecl, resultFields]) rfl (by decide)⟩

/-- C5. For every function declaration whose parameter and result types are simple
identifiers and whose body is the single statement `s`, `Function` ends as
`Statement s` does (it converts, returns the same error, or panics alike), and when
`Statement s` returns the expression `e` the result has the declared name, the
flattened parameters, the result types and the body `Single e`. -/
theorem Function_single_body (conv : funC) (fd : ast.FuncDecl) (body : ast.BlockStmt)
    (s : ast.Stmt)
    (hp : ∀ p ∈ fd.Type_.Params.List, isIdent p.Type_ = true)
    (hr : ∀ p ∈ resultFields fd, isIdent p.Type_ = true)
    (hb : fd.Body = some body) (hs : body.List = [s]) :
    verdict (Function conv fd) = verdict (Statement conv s) ∧
    (((∃ fn, Function conv fd = .ok fn) ↔ ∃ e, Statement conv s = .ok e)) ∧
    (∀ v err, Statement conv s = .fail v err → ∃ w, Function conv fd = .fail w err) ∧
    ∀ e, Statement conv s = .ok e →
      Function conv fd = .ok
        { Name := fd.Name.Name, Params := flattenParams fd.Type_.Params.List,
          Results := resultTypes (resultFields fd), Body := some (.Single e) } := by
  rw [Function_of_ident_types conv fd hp hr]
  unfold functionBody
  simp only [hb, hs]
  cases Statement conv s <;> simp [verdict]

/-- Witness for C5: `func inc(val int) int { return val + 1 }`. -/
theorem Function_single_body_witness :
    Function sampleConv incDecl = .ok
      { Name := "inc", Params := [⟨"val", "int"⟩], Results := ["int"],
        Body := some (.Single (.BinaryOp (.Var "val") "+" (.IntegerLit 1))) } :=
  (Function_single_body sampleConv incDecl
    ⟨[.ReturnStmt [.BinaryExpr (.Ident (boundVar "val")) .ADD (.BasicLit ⟨.INT, "1"⟩)]]⟩ _
    (by simp [incDecl, isIdent]) (by simp [incDecl, resultFields, isIdent]) rfl rfl).2.2.2 _ rfl

end translate

namespace translate

theorem hasReason_errorWithAST (conv : funC) (message : String) (obj : Node) :
    hasReason (conv.errorWithAST message obj) message :=
  ⟨conv.astFprint obj, rfl⟩

/-- C6, counterexample. The declaration `func deref(p *int)` has no body, yet `Function`
returns the error of its parameter type, whose text does not start with the reason
for a missing body. -/
theorem Function_no_body_other_reason :
    Function sampleConv derefDecl =
        .fail (some { Name := "deref" }) (.Errorf "not supported type:\n<ast>") ∧
      ¬ hasReason (.Errorf "not supported type:\n<ast>") "empty function body is not supported" := by
  refine ⟨rfl, ?_⟩
  rintro ⟨dump, h⟩
  simp only [GoError.Errorf.injEq] at h
  have h2 := congrArg (fun s => s.data.head?) h
  simp [String.data_append] at h2

/-- C6, amended. A function declaration without a body never converts: `Function` does
not succeed on it; when its parameter and result types are all simple identifiers it
returns an error whose text starts with "empty function body is not supported"; and on
every source file containing such a declaration `Package` does not succeed, and returns
an error whenever no import and no function declaration of the file panics. -/
theorem Function_no_body (conv : funC) (fd : ast.FuncDecl) (hb : fd.Body = none) :
    (∀ fn, Function conv fd ≠ .ok fn) ∧
    ((∀ p ∈ fd.Type_.Params.List, isIdent p.Type_ = true) →
      (∀ p ∈ resultFields fd, isIdent p.Type_ = true) →
      ∃ v err, Function conv fd = .fail v err ∧
        hasReason err "empty function body is not supported") ∧
    (∀ src : ast.File, ast.Decl.FuncDecl fd ∈ src.Decls →
      (∀ p, Package conv src ≠ .ok p) ∧
      ((∀ v ∈ elementVerdicts conv src, v ≠ .crashes) →
        ∃ v err, Package conv src = .fail v err)) := by
  refine ⟨Function_no_body_not_ok conv fd hb, ?_, ?_⟩
  · intro hp hr
    rw [Function_of_ident_types conv fd hp hr]
    simp only [functionBody, hb]
    exact ⟨_, _, rfl, hasReason_errorWithAST _ _ _⟩
  · intro src hmem
    have hv : verdict (Function conv fd) ∈ elementVerdicts conv src := by
      simp only [elementVerdicts, List.mem_append, List.mem_map]
      exact Or.inr ⟨fd, (mem_funcDecls fd src.Decls).mpr hmem, rfl⟩
    have hne : verdict (Function conv fd) ≠ .converts := by
      have := Function_no_body_not_ok conv fd hb
      cases h : Function conv fd with
      | ok fn => exact absurd h (this fn)
      | fail v e => simp [verdict]
      | panic => simp [verdict]
    have hstop : firstStop (elementVerdicts conv src) ≠ .converts := by
      intro h
      exact hne ((firstStop_converts_iff _).mp h _ hv)
    have hpv := Package_verdict conv src
    refine ⟨?_, ?_⟩
    · intro p hp
      rw [hp] at hpv
      exact hstop hpv.symm
    · intro hnc
      rcases firstStop_mem (elementVerdicts conv src) with h | h
      · exact absurd h hstop
      · have := hnc _ h
        rw [← hpv] at this hstop
        cases hP : Package conv src with
        | ok p => rw [hP] at hstop; simp [verdict] at hstop
        | fail v e => exact ⟨v, e, rfl⟩
        | panic => rw [hP] at this; simp [verdict] at this

/-- Witness for the amended C6: `func forwardDeclared() bool` of
`TestFun_Module_unsupportedForwardDeclare`. -/
theorem Function_no_body_witness :
    ∃ v err, Function sampleConv forwardDeclared = .fail v err ∧
      hasReason err "empty function body is not supported" :=
  (Function_no_body sampleConv forwardDeclared rfl).2.1
    (by simp [forwardDeclared]) (by simp [forwardDeclared, resultFields, isIdent])

/-- C7. When `Function` succeeds, every parameter group has an identifier type and
`Params` is the flattening of the groups in source order, a group of type `T` with names
`n1..nk` contributing `(n1,T),...,(nk,T)`, so that the number of `Params` is the total
number of names; `Function` does succeed, with these `Params`, whenever the parameter
and result types are simple identifiers and the body is present with either a number of
statements other than one or a single statement that converts; and when some parameter
group has a type that is not a simple identifier, `Function` fails with the reason
"not supported type". -/
theorem Function_params (conv : funC) (fd : ast.FuncDecl) :
    (∀ fn, Function conv fd = .ok fn →
      (∀ p ∈ fd.Type_.Params.List, ∃ T, p.Type_ = .Ident T ∧
        groupParams p = p.Names.map (fun n => ⟨n.Name, T.Name⟩)) ∧
      fn.Params = (fd.Type_.Params.List.map groupParams).flatten ∧
      fn.Params.length = (fd.Type_.Params.List.map (fun p => p.Names.length)).sum) ∧
    ((∀ p ∈ fd.Type_.Params.List, isIdent p.Type_ = true) →
      (∀ p ∈ resultFields fd, isIdent p.Type_ = true) →
      ∀ body, fd.Body = some body →
      (body.List.length ≠ 1 ∨ ∃ s e, body.List = [s] ∧ Statement conv s = .ok e) →
      ∃ b, Function conv fd = .ok
        { Name := fd.Name.Name,
          Params := (fd.Type_.Params.List.map groupParams).flatten,
          Results := resultTypes (resultFields fd), Body := some b }) ∧
    ((∃ p ∈ fd.Type_.Params.List, isIdent p.Type_ = false) →
      ∃ v err, Function conv fd = .fail v err ∧ hasReason err "not supported type") := by
  refine ⟨?_, ?_, ?_⟩
  · intro fn hfn
    have hp : ∀ p ∈ fd.Type_.Params.List, isIdent p.Type_ = true := by
      by_contra hcon
      push_neg at hcon
      obtain ⟨p, hp, hpi⟩ := hcon
      obtain ⟨pre, q, post, -, -, -, hF⟩ :=
        Function_param_not_ident conv fd ⟨p, hp, by simpa using hpi⟩
      rw [hF] at hfn
      simp at hfn
    have hr : ∀ p ∈ resultFields fd, isIdent p.Type_ = true := by
      by_contra hcon
      push_neg at hcon
      obtain ⟨p, hp', hpi⟩ := hcon
      rw [Function_result_not_ident conv fd hp ⟨p, hp', by simpa using hpi⟩] at hfn
      simp at hfn
    rw [Function_of_ident_types conv fd hp hr] at hfn
    obtain ⟨b, -, rfl⟩ := functionBody_ok conv fd _ fn hfn
    have hg : ∀ p ∈ fd.Type_.Params.List, ∃ T, p.Type_ = .Ident T ∧
        groupParams p = p.Names.map (fun n => ⟨n.Name, T.Name⟩) := by
      intro p hpm
      obtain ⟨T, hT⟩ := (isIdent_iff _).mp (hp p hpm)
      exact ⟨T, hT, by simp [groupParams, hT]⟩
    refine ⟨hg, rfl, ?_⟩
    simp only [flattenParams]
    generalize fd.Type_.Params.List = ps at hg
    induction ps with
    | nil => simp
    | cons p rest ih =>
      obtain ⟨T, -, hT⟩ := hg p (by simp)
      simp only [List.map_cons, List.flatten_cons, List.length_append, List.sum_cons]
      rw [ih (fun q hq => hg q (by simp [hq])), hT]
      simp
  · intro hp hr body hb hbody
    rw [Function_of_ident_types conv fd hp hr]
    unfold functionBody
    simp only [hb, flattenParams]
    rcases hbody with hn | ⟨s, e, hs, he⟩
    · split
      · rename_i s hs
        simp [hs] at hn
      · exact ⟨_, rfl⟩
    · simp only [hs, he]
      exact ⟨_, rfl⟩
  · intro h
    obtain ⟨pre, p, post, -, -, -, hF⟩ := Function_param_not_ident conv fd h
    exact ⟨_, _, hF, hasReason_errorWithAST _ _ _⟩

/-- Witness for C7: `Function` converts `inc`, whose one parameter group `val int` gives
the one param `(val, int)`, and `pair`, whose group `a, b int` gives the two params
`(a, int)` and `(b, int)`; and it fails on `deref`, whose parameter type is `*int`. -/
theorem Function_params_witness :
    (∃ b, Function sampleConv incDecl = .ok
      { Name := "inc", Params := [⟨"val", "int"⟩], Results := ["int"], Body := some b }) ∧
    (∃ b, Function sampleConv pairDecl = .ok
      { Name := "pair", Params := [⟨"a", "int"⟩, ⟨"b", "int"⟩], Results := ["int"],
        Body := some b }) ∧
    ∃ v err, Function sampleConv derefDecl = .fail v err ∧ hasReason err "not supported type" :=
  ⟨(Function_params sampleConv incDecl).2.1
      (by simp [incDecl, isIdent]) (by simp [incDecl, resultFields, isIdent]) _ rfl
      (Or.inr ⟨_, _, rfl, rfl⟩),
    (Function_params sampleConv pairDecl).2.1
      (by simp [pairDecl, isIdent]) (by simp [pairDecl, resultFields, isIdent]) _ rfl
      (Or.inr ⟨_, _, rfl, rfl⟩),
    (Function_params sampleConv derefDecl).2.2 ⟨_, List.mem_singleton.mpr rfl, rfl⟩⟩

/-- C8, the failing input. On `func fresh() *int { return nil }`, whose result type is a
pointer type, `Function` panics: it neither returns an error nor succeeds. -/
theorem Function_result_type_panics (conv : funC) : Function conv freshDecl = .panic := by
  rfl

end translate

/-! ## Statement, Import -/

namespace translate

theorem convertRun_of_forall₂ {α β : Type} (f : α → Outcome β) (l : List α) (bs : List β)
    (h : List.Forall₂ (fun a b => f a = .ok b) l bs) : convertRun f l = (bs, .converts) := by
  induction h with
  | nil => rfl
  | cons hab _ ih => simp [convertRun, hab, ih]

theorem convertRun_converts {α β : Type} (f : α → Outcome β) (l : List α)
    (h : (convertRun f l).2 = .converts) :
    List.Forall₂ (fun a b => f a = .ok b) l (convertRun f l).1 := by
  have h1 := convertRun_forall₂ f l
  rcases convertRun_stop f l with ⟨-, hl⟩ | ⟨a, -, -, hne⟩
  · rwa [hl, List.take_length] at h1
  · exact absurd h hne

theorem convertRun_of_split {α β : Type} (f : α → Outcome β) (pre : List α) (x : α)
    (post : List α) (hpre : ∀ a ∈ pre, ∃ b, f a = .ok b) (hx : ∀ b, f x ≠ .ok b) :
    (convertRun f (pre ++ x :: post)).2 = verdict (f x) := by
  induction pre with
  | nil => cases h : f x <;> simp_all [convertRun, verdict]
  | cons a rest ih =>
    obtain ⟨b, hb⟩ := hpre a (by simp)
    simp only [List.cons_append, convertRun, hb]
    exact ih (fun c hc => hpre c (by simp [hc]))

theorem ExpressionList_eq (conv : funC) (l : List ast.Expr) :
    ExpressionList conv l =
      match (convertRun (Expression conv) l).2 with
      | .converts => .ok (convertRun (Expression conv) l).1
      | .error err => .fail none err
      | .crashes => .panic := by
  induction l with
  | nil => simp [ExpressionList, convertRun]
  | cons a rest ih =>
    rw [ExpressionList]
    cases h : Expression conv a with
    | panic => simp [convertRun, h]
    | fail v e => simp [convertRun, h]
    | ok b =>
      simp only [convertRun, h, ih]
      cases (convertRun (Expression conv) rest).2 <;> simp

theorem Expression_ok_not_Results (conv : funC) (e : ast.Expr) (vs : List Fun.Expr) :
    Expression conv e ≠ .ok (.Results vs) := by
  cases e with
  | SelectorExpr X Sel => cases X <;> simp [Expression]
  | _ => rw [Expression] <;> (repeat' split) <;> simp

end translate

namespace translate

theorem Statement_return_many (conv : funC) (a b : ast.Expr) (rest : List ast.Expr) :
    Statement conv (.ReturnStmt (a :: b :: rest)) =
      match (convertRun (Expression conv) (a :: b :: rest)).2 with
      | .converts => .ok (.Results (convertRun (Expression conv) (a :: b :: rest)).1)
      | .error err => .fail none err
      | .crashes => .panic := by
  simp only [Statement]
  rw [ExpressionList_eq]
  cases (convertRun (Expression conv) (a :: b :: rest)).2 <;> simp

theorem Statement_fail_nil (conv : funC) (stmt : ast.Stmt) (w : Option Fun.Expr)
    (err : GoError) (h : Statement conv stmt = .fail w err) : w = none := by
  cases stmt with
  | ReturnStmt rs =>
    match rs with
    | [] => simp [Statement] at h; exact h.1.symm
    | [e] =>
      simp only [Statement] at h
      cases h2 : Expression conv e <;> simp [h2] at h
      exact h.1.symm
    | a :: b :: rest =>
      rw [Statement_return_many] at h
      cases h2 : (convertRun (Expression conv) (a :: b :: rest)).2 <;> simp [h2] at h
      exact h.1.symm
  | ExprStmt X =>
    simp only [Statement] at h
    cases h2 : Expression conv X <;> simp [h2] at h
    exact h.1.symm
  | _ => simp [Statement] at h; exact h.1.symm

/-- C9. `Statement` on a return statement with result list `rs`: an empty `rs` fails
with the reason "result list of zero length is not supported"; on a single expression
`e` it does as `Expression e` does, with the same expression on success and the same
error on failure, and never with a `Results`; for two or more expressions it returns `Results` of
the conversions of the `rs[i]` in order (as many as `rs` has) when they all convert, and
the error of the first `rs[i]` that fails when those before it convert. `Statement`
returns a `Results` only for a return statement with two or more results, and the
expression it returns alongside an error is nil. -/
theorem Statement_return (conv : funC) :
    (Statement conv (.ReturnStmt []) = .fail none
        (conv.errorWithAST "result list of zero length is not supported"
          (.stmt (.ReturnStmt []))) ∧
      hasReason (conv.errorWithAST "result list of zero length is not supported"
          (.stmt (.ReturnStmt []))) "result list of zero length is not supported") ∧
    (∀ e, verdict (Statement conv (.ReturnStmt [e])) = verdict (Expression conv e) ∧
      (∀ v, Expression conv e = .ok v → Statement conv (.ReturnStmt [e]) = .ok v) ∧
      (∀ vs, Statement conv (.ReturnStmt [e]) ≠ .ok (.Results vs))) ∧
    (∀ rs, 2 ≤ rs.length →
      (∀ vs, List.Forall₂ (fun r v => Expression conv r = .ok v) rs vs →
        Statement conv (.ReturnStmt rs) = .ok (.Results vs) ∧ vs.length = rs.length) ∧
      (∀ v, Statement conv (.ReturnStmt rs) = .ok v →
        ∃ vs, v = .Results vs ∧ List.Forall₂ (fun r v => Expression conv r = .ok v) rs vs) ∧
      (∀ pre r post w err, rs = pre ++ r :: post →
        (∀ a ∈ pre, ∃ v, Expression conv a = .ok v) → Expression conv r = .fail w err →
        Statement conv (.ReturnStmt rs) = .fail none err)) ∧
    (∀ stmt vs, Statement conv stmt = .ok (.Results vs) →
      ∃ rs, stmt = .ReturnStmt rs ∧ 2 ≤ rs.length ∧ vs.length = rs.length) ∧
    (∀ stmt w err, Statement conv stmt = .fail w err → w = none) := by
  refine ⟨⟨by simp [Statement], hasReason_errorWithAST _ _ _⟩, ?_, ?_, ?_,
    Statement_fail_nil conv⟩
  · intro e
    have hne := Expression_ok_not_Results conv e
    simp only [Statement]
    cases h : Expression conv e with
    | ok v => rw [h] at hne; simpa [verdict] using hne
    | fail w err => simp [verdict]
    | panic => simp [verdict]
  · intro rs hlen
    match rs, hlen with
    | a :: b :: rest, _ =>
      refine ⟨?_, ?_, ?_⟩
      · intro vs hvs
        rw [Statement_return_many, convertRun_of_forall₂ _ _ _ hvs]
        exact ⟨rfl, hvs.length_eq.symm⟩
      · intro v hv
        rw [Statement_return_many] at hv
        cases h2 : (convertRun (Expression conv) (a :: b :: rest)).2 with
        | converts =>
          rw [h2] at hv
          simp only [Outcome.ok.injEq] at hv
          exact ⟨_, hv.symm, convertRun_converts _ _ h2⟩
        | error e => rw [h2] at hv; simp at hv
        | crashes => rw [h2] at hv; simp at hv
      · intro pre r post w err hsplit hpre hr
        rw [Statement_return_many, hsplit,
          convertRun_of_split _ pre r post hpre (by simp [hr]), hr]
        simp [verdict]
  · intro stmt vs h
    cases stmt with
    | ReturnStmt rs =>
      match rs with
      | [] => simp [Statement] at h
      | [e] =>
        simp only [Statement] at h
        cases h2 : Expression conv e with
        | ok v =>
          rw [h2] at h
          simp only [Outcome.ok.injEq] at h
          rw [h] at h2
          exact absurd h2 (Expression_ok_not_Results conv e vs)
        | fail w err => rw [h2] at h; simp at h
        | panic => rw [h2] at h; simp at h
      | a :: b :: rest =>
        refine ⟨_, rfl, by simp, ?_⟩
        rw [Statement_return_many] at h
        cases h2 : (convertRun (Expression conv) (a :: b :: rest)).2 with
        | converts =>
          rw [h2] at h
          simp only [Outcome.ok.injEq, Fun.Expr.Results.injEq] at h
          rw [← h]
          exact (convertRun_converts _ _ h2).length_eq.symm
        | error e => rw [h2] at h; simp at h
        | crashes => rw [h2] at h; simp at h
    | ExprStmt X =>
      simp only [Statement] at h
      cases h2 : Expression conv X with
      | ok v =>
        rw [h2] at h
        simp only [Outcome.ok.injEq] at h
        rw [h] at h2
        exact absurd h2 (Expression_ok_not_Results conv X vs)
      | fail w err => rw [h2] at h; simp at h
      | panic => rw [h2] at h; simp at h
    | _ => simp [Statement] at h

/-- Witness for C9: ``return 'a', 9.99`` gives the `Results` of the character `a` and
the double 9.99. -/
theorem Statement_return_witness :
    Statement sampleConv tupleReturn =
        .ok (.Results [.CharLit 'a', .DoubleLit ⟨0x4023fae147ae147b⟩]) ∧
      [Fun.Expr.CharLit 'a', .DoubleLit ⟨0x4023fae147ae147b⟩].length = 2 :=
  ((Statement_return sampleConv).2.2.1
    [.BasicLit ⟨.CHAR, "'a'"⟩, .BasicLit ⟨.FLOAT, "9.99"⟩] (by decide)).1 _
    (.cons rfl (.cons rfl .nil))

/-- C10. For every import specification: `Import` succeeds exactly when its path
converts through `Expression` to a string literal, which is exactly when the path
literal has kind `STRING`, and the result is then the import whose path is the literal
text with the surrounding double quotes trimmed; when the path converts to a value of
another kind, `Import` fails with the reason "not a string or char literal"; and when
the path fails to convert, `Import` returns that error. -/
theorem Import_spec (conv : funC) (imp : ast.ImportSpec) :
    ((∃ r, Import conv imp = .ok r) ↔
      ∃ s, Expression conv (.BasicLit imp.Path) = .ok (.StringLit s)) ∧
    ((∃ s, Expression conv (.BasicLit imp.Path) = .ok (.StringLit s)) ↔
      imp.Path.Kind = .STRING) ∧
    (imp.Path.Kind = .STRING →
      Import conv imp = .ok { Path := strings.Trim imp.Path.Value '"' }) ∧
    (∀ v, Expression conv (.BasicLit imp.Path) = .ok v → (∀ s, v ≠ .StringLit s) →
      Import conv imp = .fail (some {})
        (conv.errorWithAST "not a string or char literal" (.expr (.BasicLit imp.Path))) ∧
      hasReason (conv.errorWithAST "not a string or char literal" (.expr (.BasicLit imp.Path)))
        "not a string or char literal") ∧
    (∀ w err, Expression conv (.BasicLit imp.Path) = .fail w err →
      Import conv imp = .fail (some {}) err) := by
  refine ⟨?_, ?_, ?_, ?_, ?_⟩
  · simp only [Import]
    cases h : Expression conv (.BasicLit imp.Path) with
    | ok v => cases v <;> simp
    | fail w err => simp
    | panic => simp
  · rw [Expression]
    cases hk : imp.Path.Kind <;> simp
    all_goals (repeat' split) <;> simp
  · intro hk
    simp [Import, Expression, hk]
  · intro v hv hns
    refine ⟨?_, hasReason_errorWithAST _ _ _⟩
    cases v <;> simp_all [Import]
  · intro w err h
    simp [Import, h]

/-- Witness for C10: the import specification of `TestFun_Import`, whose path literal
has kind `STRING` and text `fmt`, gives the import of path `fmt`. -/
theorem Import_spec_witness :
    Import sampleConv { Path := ⟨.STRING, "fmt"⟩ } = .ok { Path := "fmt" } :=
  (Import_spec sampleConv { Path := ⟨.STRING, "fmt"⟩ }).2.2.1 rfl

end translate

/-! ## Import aliases; calls, selectors, binary expressions, identifiers -/

namespace translate

theorem convertRun_congr {α β : Type} (f : α → Outcome β) (g : α → α)
    (h : ∀ a, f (g a) = f a) (l : List α) : convertRun f (l.map g) = convertRun f l := by
  induction l with
  | nil => rfl
  | cons a rest ih => simp only [List.map_cons, convertRun, h, ih]

theorem convertRun_converts_iff {α β : Type} (f : α → Outcome β) (l : List α) :
    (convertRun f l).2 = .converts ↔ ∀ a ∈ l, ∃ b, f a = .ok b := by
  rw [convertRun_verdict, firstStop_converts_iff]
  simp only [List.mem_map, forall_exists_index, and_imp, forall_apply_eq_imp_iff₂]
  refine forall₂_congr (fun a _ => ?_)
  cases f a <;> simp [verdict]

/-- C11, the failing input. The import specification `import f "fmt"` carries the alias
`f`, yet `Import` returns the import of path `fmt` with no error, and `Package`
succeeds on the files that contain it; in the second file the call `f.Println(42)` is
translated to an application of `f.Println`, a name that no import of the result
provides. -/
theorem Import_alias_converts (conv : funC) :
    aliasedImport.Name = some (name "f") ∧
      Import conv aliasedImport = .ok { Path := "fmt" } ∧
      Package conv aliasedSource = .ok { Name := "main", Imports := [⟨"fmt"⟩] } ∧
      Package conv aliasedCallSource = .ok
        { Name := "main", Imports := [⟨"fmt"⟩],
          TopLevels := [
            { Name := "hello",
              Body := some (.Single (.Application ⟨"f.Println"⟩ [.IntegerLit 42])) }] } :=
  ⟨rfl, rfl, rfl, rfl⟩

/-- The alias of an import specification is never read: `Import` gives the same outcome
whatever alias the specification carries, and `Package` gives the same outcome on a
source file as on that file with the aliases of its imports removed. -/
theorem Import_ignores_alias (conv : funC) :
    (∀ (imp : ast.ImportSpec) (a : Option ast.Ident),
      Import conv { imp with Name := a } = Import conv imp) ∧
    (∀ src : ast.File,
      Package conv
        { src with Imports := src.Imports.map (fun imp => { imp with Name := none }) } =
      Package conv src) := by
  refine ⟨fun imp a => rfl, fun src => ?_⟩
  rw [Package_eq, Package_eq]
  simp only []
  rw [convertRun_congr (Import conv) (fun imp => { imp with Name := none }) (fun _ => rfl)]

/-- C12. For every call expression with callee `f` and arguments `args`: when `f`
converts to the function name `n` and the arguments convert to `vs`, `Expression`
returns the application of `n` to `vs`, which has as many arguments as `args`, in
source order; `Expression` succeeds exactly when `f` converts to a function name and
every argument converts; when `f` converts to another kind of expression it fails with
the reason "expected FunctionVal but got"; an error of `f` is returned whatever the
arguments do; and with `f` a function name, the error of the leftmost failing argument
is returned. -/
theorem Expression_call (conv : funC) (f : ast.Expr) (args : List ast.Expr) :
    (∀ n vs, Expression conv f = .ok (.FuncName n) →
      List.Forall₂ (fun a v => Expression conv a = .ok v) args vs →
      Expression conv (.CallExpr f args) = .ok (.Application n vs) ∧
        vs.length = args.length) ∧
    ((∃ v, Expression conv (.CallExpr f args) = .ok v) ↔
      (∃ n, Expression conv f = .ok (.FuncName n)) ∧
        ∀ a ∈ args, ∃ v, Expression conv a = .ok v) ∧
    (∀ e, Expression conv f = .ok e → (∀ n, e ≠ .FuncName n) →
      Expression conv (.CallExpr f args) =
          .fail none (conv.errorWithAST "expected FunctionVal but got" (.funExpr e)) ∧
        hasReason (conv.errorWithAST "expected FunctionVal but got" (.funExpr e))
          "expected FunctionVal but got") ∧
    (∀ w err, Expression conv f = .fail w err →
      Expression conv (.CallExpr f args) = .fail none err) ∧
    (∀ n pre a post w err, Expression conv f = .ok (.FuncName n) →
      args = pre ++ a :: post → (∀ b ∈ pre, ∃ v, Expression conv b = .ok v) →
      Expression conv a = .fail w err →
      Expression conv (.CallExpr f args) = .fail none err) := by
  refine ⟨?_, ?_, ?_, ?_, ?_⟩
  · intro n vs hf hvs
    rw [Expression, hf]
    simp only []
    rw [ExpressionList_eq, convertRun_of_forall₂ _ _ _ hvs]
    exact ⟨rfl, hvs.length_eq.symm⟩
  · rw [← convertRun_converts_iff, Expression]
    cases hf : Expression conv f with
    | panic => simp
    | fail w err => simp
    | ok e =>
      cases e <;> simp
      rw [ExpressionList_eq]
      cases (convertRun (Expression conv) args).2 <;> simp
  · intro e hf hne
    refine ⟨?_, hasReason_errorWithAST _ _ _⟩
    rw [Expression, hf]
    cases e <;> simp_all
  · intro w err hf
    rw [Expression, hf]
  · intro n pre a post w err hf hsplit hpre ha
    rw [Expression, hf]
    simp only []
    rw [ExpressionList_eq, hsplit, convertRun_of_split _ pre a post hpre (by simp [ha]), ha]
    simp [verdict]

/-- Witness for C12: `fmt.Println(42)` gives the application of `fmt.Println` to the
integer 42. -/
theorem Expression_call_witness :
    Expression sampleConv printlnCall = .ok (.Application ⟨"fmt.Println"⟩ [.IntegerLit 42]) ∧
      [Fun.Expr.IntegerLit 42].length = [ast.Expr.BasicLit ⟨.INT, "42"⟩].length :=
  (Expression_call sampleConv printlnSelector [.BasicLit ⟨.INT, "42"⟩]).1 ⟨"fmt.Println"⟩
    [.IntegerLit 42] rfl (.cons rfl .nil)

end translate

namespace translate

theorem isQualifiedName_iff (e : ast.Expr) :
    isQualifiedName e = true ↔ ∃ x Sel, e = .SelectorExpr (.Ident x) Sel := by
  cases e with
  | SelectorExpr X Sel => cases X <;> simp [isQualifiedName]
  | _ => simp [isQualifiedName]

theorem Expression_ok_FuncName (conv : funC) (e : ast.Expr) (n : Fun.FuncName)
    (h : Expression conv e = .ok (.FuncName n)) :
    ∃ x Sel, e = .SelectorExpr (.Ident x) Sel ∧ n = ⟨x.Name ++ "." ++ Sel.Name⟩ := by
  cases e with
  | SelectorExpr X Sel =>
    cases X with
    | Ident x =>
      simp only [Expression, identToString, Outcome.ok.injEq, Fun.Expr.FuncName.injEq] at h
      exact ⟨x, Sel, rfl, h.symm⟩
    | _ => simp [Expression] at h
  | _ =>
    exfalso
    revert h
    rw [Expression] <;> (repeat' split) <;> simp

theorem Expression_fail_value (conv : funC) (e : ast.Expr) (w : Option Fun.Expr)
    (err : GoError) (h : Expression conv e = .fail w err) :
    w = none ∨ (∃ x, w = some (.IntegerLit x)) ∨ ∃ x, w = some (.DoubleLit x) := by
  cases e with
  | SelectorExpr X Sel => cases X <;> simp [Expression] at h <;> exact Or.inl h.1.symm
  | _ =>
    revert h
    rw [Expression] <;> (repeat' split) <;> simp <;> (intro h1 _; simp [← h1])

/-- C13. `Expression` returns a function name exactly for the selectors whose base is a
plain identifier: such a selector, the identifier resolved or not, converts to the
function name `base.member`; a selector with any other base fails with the reason
"argument type not supported"; no other expression converts to a function name, nor
is one returned alongside an error; so a call whose callee is not such a selector
never converts, and returns an error unless the conversion of the callee panics. -/
theorem Expression_function_name (conv : funC) :
    (∀ x Sel, Expression conv (.SelectorExpr (.Ident x) Sel) =
      .ok (.FuncName ⟨x.Name ++ "." ++ Sel.Name⟩)) ∧
    (∀ X Sel, isIdent X = false →
      Expression conv (.SelectorExpr X Sel) =
          .fail none (conv.errorWithAST "argument type not supported" (.expr X)) ∧
        hasReason (conv.errorWithAST "argument type not supported" (.expr X))
          "argument type not supported") ∧
    (∀ e n, Expression conv e = .ok (.FuncName n) →
      ∃ x Sel, e = .SelectorExpr (.Ident x) Sel ∧ n = ⟨x.Name ++ "." ++ Sel.Name⟩) ∧
    (∀ e w err n, Expression conv e = .fail w err → w ≠ some (.FuncName n)) ∧
    (∀ f args, isQualifiedName f = false →
      (∀ v, Expression conv (.CallExpr f args) ≠ .ok v) ∧
      (Expression conv f ≠ .panic →
        ∃ err, Expression conv (.CallExpr f args) = .fail none err)) := by
  refine ⟨fun x Sel => by simp [Expression, identToString], ?_,
    Expression_ok_FuncName conv, ?_, ?_⟩
  · intro X Sel hX
    refine ⟨?_, hasReason_errorWithAST _ _ _⟩
    cases X <;> simp_all [Expression, isIdent]
  · intro e w err n h
    rcases Expression_fail_value conv e w err h with rfl | ⟨x, rfl⟩ | ⟨x, rfl⟩ <;> simp
  · intro f args hq
    have hnot : ∀ n, Expression conv f ≠ .ok (.FuncName n) := by
      intro n hn
      obtain ⟨x, Sel, rfl, -⟩ := Expression_ok_FuncName conv f n hn
      simp [isQualifiedName] at hq
    rw [Expression]
    cases hf : Expression conv f with
    | panic => simp
    | fail w err => simp
    | ok e =>
      cases e with
      | FuncName n => exact absurd hf (hnot n)
      | _ => simp

/-- Witness for C13: the selector `fmt.Println` gives the function name
`fmt.Println`, and the call `inc(1)` of a bare function name returns an error. -/
theorem Expression_function_name_witness :
    Expression sampleConv printlnSelector = .ok (.FuncName ⟨"fmt.Println"⟩) ∧
      ∃ err, Expression sampleConv incCall = .fail none err :=
  ⟨(Expression_function_name sampleConv).1 (name "fmt") (name "Println"),
    ((Expression_function_name sampleConv).2.2.2.2
      (.Ident { Name := "inc", Obj := some ⟨.Fun, "inc"⟩ }) [.BasicLit ⟨.INT, "1"⟩] rfl).2
      (by simp [Expression])⟩

/-- C14. For every binary expression `X op Y`: when both operands convert, `Expression`
returns the binary operation of the converted `X`, the textual symbol of the operator
token and the converted `Y`, in that order, whatever the operator token is;
`Expression` succeeds exactly when both operands convert; an error of `X` is returned
whatever `Y` does, and an error of `Y` is returned when `X` converts. -/
theorem Expression_binary (conv : funC) (X Y : ast.Expr) (Op : token.Token) :
    (∀ x y, Expression conv X = .ok x → Expression conv Y = .ok y →
      Expression conv (.BinaryExpr X Op Y) = .ok (.BinaryOp x Op.string y)) ∧
    ((∃ v, Expression conv (.BinaryExpr X Op Y) = .ok v) ↔
      (∃ x, Expression conv X = .ok x) ∧ ∃ y, Expression conv Y = .ok y) ∧
    (∀ w err, Expression conv X = .fail w err →
      Expression conv (.BinaryExpr X Op Y) = .fail none err) ∧
    (∀ x w err, Expression conv X = .ok x → Expression conv Y = .fail w err →
      Expression conv (.BinaryExpr X Op Y) = .fail none err) := by
  rw [Expression]
  cases Expression conv X <;> cases Expression conv Y <;> simp

/-- Witness for C14: `val + 1`, with `val` bound as a variable, gives the binary
operation of the variable `val`, the symbol `+` and the integer 1. -/
theorem Expression_binary_witness :
    Expression sampleConv valPlusOne = .ok (.BinaryOp (.Var "val") "+" (.IntegerLit 1)) :=
  (Expression_binary sampleConv (.Ident (boundVar "val")) (.BasicLit ⟨.INT, "1"⟩) .ADD).1
    _ _ rfl rfl

/-- C15. For every identifier expression: `Expression` returns the variable of that
name exactly when the identifier has a resolved binding of kind variable; with no
binding it fails with the reason "Ident with empty Obj is not supported"; with a
binding of any other kind it fails with the reason "unsupported Obj kind". -/
theorem Expression_ident (conv : funC) (id : ast.Ident) :
    ((∃ v, Expression conv (.Ident id) = .ok v) ↔
      ∃ obj, id.Obj = some obj ∧ obj.Kind = .Var) ∧
    (∀ v, Expression conv (.Ident id) = .ok v → v = .Var id.Name) ∧
    (id.Obj = none →
      Expression conv (.Ident id) =
          .fail none (conv.errorWithAST "Ident with empty Obj is not supported"
            (.expr (.Ident id))) ∧
        hasReason (conv.errorWithAST "Ident with empty Obj is not supported"
            (.expr (.Ident id))) "Ident with empty Obj is not supported") ∧
    (∀ obj, id.Obj = some obj → obj.Kind ≠ .Var →
      Expression conv (.Ident id) =
          .fail none (conv.errorWithAST "unsupported Obj kind" (.object obj)) ∧
        hasReason (conv.errorWithAST "unsupported Obj kind" (.object obj))
          "unsupported Obj kind") := by
  rw [Expression]
  cases hobj : id.Obj with
  | none => simp [hasReason_errorWithAST]
  | some obj =>
    cases hk : obj.Kind <;> simp [hk, hasReason_errorWithAST]

/-- Witness for C15: an identifier bound as a variable converts; the same identifier
without a binding, and bound as a function, both fail. -/
theorem Expression_ident_witness :
    (∃ v, Expression sampleConv (.Ident (boundVar "val")) = .ok v) ∧
      hasReason (sampleConv.errorWithAST "Ident with empty Obj is not supported"
        (.expr (.Ident (name "val")))) "Ident with empty Obj is not supported" ∧
      hasReason (sampleConv.errorWithAST "unsupported Obj kind" (.object ⟨.Fun, "inc"⟩))
        "unsupported Obj kind" :=
  ⟨(Expression_ident sampleConv (boundVar "val")).1.mpr ⟨⟨.Var, "val"⟩, rfl, rfl⟩,
    ((Expression_ident sampleConv (name "val")).2.2.1 rfl).2,
    ((Expression_ident sampleConv { Name := "inc", Obj := some ⟨.Fun, "inc"⟩ }).2.2.2
      ⟨.Fun, "inc"⟩ rfl (by decide)).2⟩

end translate

/-! ## Literals, unsupported nodes, result types -/

namespace translate

/-- C16, the failing input. The string literal `"\""` has the token text quote,
backslash, quote, quote, that is a quote, then the content backslash-quote, then a
quote; `Expression` returns the string literal of the backslash alone: the quote that
ends the content is trimmed with the surrounding one. -/
theorem Expression_string_trims_content (conv : funC) :
    quoteLit.Value = "\"" ++ "\\\"" ++ "\"" ∧
      Expression conv (.BasicLit quoteLit) = .ok (.StringLit "\\") ∧
      Expression conv (.BasicLit quoteLit) ≠ .ok (.StringLit "\\\"") := by
  refine ⟨by decide, rfl, ?_⟩
  have h : Expression conv (.BasicLit quoteLit) = .ok (.StringLit "\\") := rfl
  rw [h]
  simp only [ne_eq, Outcome.ok.injEq, Fun.Expr.StringLit.injEq]
  decide

/-- C17, the failing input. On the character literal with nothing between its quotes,
`Expression` panics: the first element of an empty list of code points is read. On
`'ab'` it returns the character `a`. -/
theorem Expression_empty_char_panics (conv : funC) :
    Expression conv (.BasicLit emptyCharLit) = .panic ∧
      Expression conv (.BasicLit ⟨.CHAR, "'ab'"⟩) = .ok (.CharLit 'a') :=
  ⟨rfl, rfl⟩

/-- C19. A basic literal whose kind is not INT, FLOAT, STRING or CHAR fails with the
error whose text is "unexpected literal type", a colon, a line break and the dump of
the literal; an expression node that is not an identifier, binary, selector, call or
basic literal fails with the reason "Expr type not supported"; a statement that is
neither a return nor an expression statement fails with the reason "ast.Stmt type not
supported"; and in each case the expression returned with the error is nil. -/
theorem Expression_unsupported (conv : funC) :
    (∀ lit : ast.BasicLit, isValueKind lit.Kind = false →
      Expression conv (.BasicLit lit) =
        .fail none (.Errorf ("unexpected literal type" ++ ":\n" ++
          conv.astFprint (.expr (.BasicLit lit))))) ∧
    (∀ e, hasExpressionCase e = false →
      Expression conv e =
          .fail none (conv.errorWithAST "Expr type not supported" (.expr e)) ∧
        hasReason (conv.errorWithAST "Expr type not supported" (.expr e))
          "Expr type not supported") ∧
    (∀ s, hasStatementCase s = false →
      Statement conv s =
          .fail none (conv.errorWithAST "ast.Stmt type not supported" (.stmt s)) ∧
        hasReason (conv.errorWithAST "ast.Stmt type not supported" (.stmt s))
          "ast.Stmt type not supported") := by
  refine ⟨?_, ?_, ?_⟩
  · intro lit hk
    rw [Expression]
    cases hkind : lit.Kind <;> simp_all [isValueKind, funC.errorWithAST]
  · intro e he
    refine ⟨?_, hasReason_errorWithAST _ _ _⟩
    cases e <;> simp_all [hasExpressionCase, Expression]
  · intro s hs
    refine ⟨?_, hasReason_errorWithAST _ _ _⟩
    cases s <;> simp_all [hasStatementCase, Statement]

/-- Witness for C19: the literal of kind `break` and text `SNAKE!`. -/
theorem Expression_unsupported_witness :
    Expression sampleConv (.BasicLit snakeLit) =
      .fail none (.Errorf ("unexpected literal type" ++ ":\n" ++
        sampleConv.astFprint (.expr (.BasicLit snakeLit)))) :=
  (Expression_unsupported sampleConv).1 snakeLit rfl

theorem Function_ok_shape (conv : funC) (fd : ast.FuncDecl) (fn : Fun.FuncDecl)
    (hfn : Function conv fd = .ok fn) :
    (∀ p ∈ fd.Type_.Params.List, isIdent p.Type_ = true) ∧
    (∀ p ∈ resultFields fd, isIdent p.Type_ = true) ∧
    ∃ b, fn = { Name := fd.Name.Name, Params := flattenParams fd.Type_.Params.List,
                Results := resultTypes (resultFields fd), Body := some b } := by
  have hp : ∀ p ∈ fd.Type_.Params.List, isIdent p.Type_ = true := by
    by_contra hcon
    push_neg at hcon
    obtain ⟨p, hp, hpi⟩ := hcon
    obtain ⟨pre, q, post, -, -, -, hF⟩ :=
      Function_param_not_ident conv fd ⟨p, hp, by simpa using hpi⟩
    rw [hF] at hfn
    simp at hfn
  have hr : ∀ p ∈ resultFields fd, isIdent p.Type_ = true := by
    by_contra hcon
    push_neg at hcon
    obtain ⟨p, hp', hpi⟩ := hcon
    rw [Function_result_not_ident conv fd hp ⟨p, hp', by simpa using hpi⟩] at hfn
    simp at hfn
  rw [Function_of_ident_types conv fd hp hr] at hfn
  obtain ⟨b, -, rfl⟩ := functionBody_ok conv fd _ fn hfn
  exact ⟨hp, hr, b, rfl⟩

theorem resultTypes_forall₂ (rs : List ast.Field)
    (h : ∀ p ∈ rs, isIdent p.Type_ = true) :
    List.Forall₂ (fun p t => ∃ T, p.Type_ = .Ident T ∧ t = T.Name) rs (resultTypes rs) := by
  induction rs with
  | nil => simp [resultTypes]
  | cons p rest ih =>
    obtain ⟨T, hT⟩ := (isIdent_iff _).mp (h p (by simp))
    rw [resultTypes]
    simp only [hT]
    exact .cons ⟨T, hT, rfl⟩ (ih (fun q hq => h q (by simp [hq])))

/-- C20. When `Function` succeeds, `Results` holds exactly one atomic type per result
field, in source order: the name of the identifier that is the type of the field,
whatever the number of names the field binds; so `Results` has as many entries as there
are result fields. -/
theorem Function_results (conv : funC) (fd : ast.FuncDecl) (fn : Fun.FuncDecl)
    (hfn : Function conv fd = .ok fn) :
    List.Forall₂ (fun p t => ∃ T, p.Type_ = .Ident T ∧ t = T.Name)
        (resultFields fd) fn.Results ∧
      fn.Results.length = (resultFields fd).length := by
  obtain ⟨-, hr, b, rfl⟩ := Function_ok_shape conv fd fn hfn
  have h := resultTypes_forall₂ (resultFields fd) hr
  exact ⟨h, h.length_eq.symm⟩

/-- Witness for C20: `func pair(a, b int) (c, d int)` returning `a, b` has the two params
`a` and `b` but the single result type `int`, fewer than the two values it returns. -/
theorem Function_results_witness :
    Function sampleConv pairDecl = .ok
        { Name := "pair", Params := [⟨"a", "int"⟩, ⟨"b", "int"⟩], Results := ["int"],
          Body := some (.Single (.Results [.Var "a", .Var "b"])) } ∧
      (["int"] : List String).length = (resultFields pairDecl).length ∧
      (["int"] : List String).length < [Fun.Expr.Var "a", Fun.Expr.Var "b"].length :=
  ⟨rfl, (Function_results sampleConv pairDecl
      { Name := "pair", Params := [⟨"a", "int"⟩, ⟨"b", "int"⟩], Results := ["int"],
        Body := some (.Single (.Results [.Var "a", .Var "b"])) } rfl).2, by decide⟩

end translate

/-! ## Integer literals -/

namespace translate

theorem isDecimalDigit_iff (c : Char) : isDecimalDigit c = true ↔ ('0' ≤ c ∧ c ≤ '9') := by
  simp [isDecimalDigit]

theorem le_decimalValue (cs : List Char) (n : Nat) : n ≤ decimalValue cs n := by
  induction cs generalizing n with
  | nil => simp [decimalValue]
  | cons c rest ih =>
    rw [decimalValue]
    exact le_trans (by omega) (ih _)

theorem parseUintLoop_digits (cs : List Char) (n : Nat)
    (hd : ∀ c ∈ cs, isDecimalDigit c = true)
    (hv : decimalValue cs n ≤ strconv.maxUint64) :
    strconv.parseUintLoop cs n = (decimalValue cs n, none) := by
  induction cs generalizing n with
  | nil => simp [strconv.parseUintLoop, decimalValue]
  | cons c rest ih =>
    have hc := (isDecimalDigit_iff c).mp (hd c (by simp))
    rw [decimalValue] at hv
    have h1 := le_trans (le_decimalValue rest _) hv
    have h2 : ¬ n ≥ strconv.maxUint64 / 10 + 1 := by
      simp only [strconv.maxUint64] at h1 ⊢
      omega
    have h3 : ¬ n * 10 + (c.toNat - '0'.toNat) > strconv.maxUint64 := by omega
    rw [strconv.parseUintLoop, decimalValue]
    simp only [hc, and_self, if_true, h2, h3, if_false]
    exact ih _ (fun d hd' => hd d (by simp [hd'])) hv

theorem parseUintLoop_overflow (cs : List Char) (n : Nat)
    (hd : ∀ c ∈ cs, isDecimalDigit c = true) (hn : n ≤ strconv.maxUint64)
    (hv : strconv.maxUint64 < decimalValue cs n) :
    strconv.parseUintLoop cs n = (strconv.maxUint64, some .ErrRange) := by
  induction cs generalizing n with
  | nil => simp [decimalValue] at hv; omega
  | cons c rest ih =>
    have hc := (isDecimalDigit_iff c).mp (hd c (by simp))
    rw [decimalValue] at hv
    rw [strconv.parseUintLoop]
    simp only [hc, and_self, if_true]
    split
    · rfl
    · split
      · rfl
      · exact ih _ (fun d hd' => hd d (by simp [hd'])) (by omega) hv

theorem parseUintLoop_range (cs : List Char) (n : Nat)
    (h : (strconv.parseUintLoop cs n).2 = some .ErrRange) :
    (strconv.parseUintLoop cs n).1 = strconv.maxUint64 := by
  induction cs generalizing n with
  | nil => simp [strconv.parseUintLoop] at h
  | cons c rest ih =>
    rw [strconv.parseUintLoop] at h ⊢
    by_cases hc : '0' ≤ c ∧ c ≤ '9'
    · rw [if_pos hc] at h ⊢
      by_cases h2 : n ≥ strconv.maxUint64 / 10 + 1
      · rw [if_pos h2]
      · rw [if_neg h2] at h ⊢
        by_cases h3 : n * 10 + (c.toNat - '0'.toNat) > strconv.maxUint64
        · rw [if_pos h3]
        · rw [if_neg h3] at h ⊢
          exact ih _ h
    · rw [if_neg hc] at h
      simp at h

theorem parseUintLoop_not_digits (cs : List Char) (n : Nat)
    (h : ∃ c ∈ cs, isDecimalDigit c = false) :
    (strconv.parseUintLoop cs n).2 ≠ none := by
  induction cs generalizing n with
  | nil => simp at h
  | cons c rest ih =>
    rw [strconv.parseUintLoop]
    by_cases hc : '0' ≤ c ∧ c ≤ '9'
    · simp only [hc, and_self, if_true]
      split
      · simp
      · split
        · simp
        · apply ih
          obtain ⟨d, hd, hdd⟩ := h
          rcases List.mem_cons.mp hd with rfl | hd'
          · rw [(isDecimalDigit_iff _).mpr hc] at hdd
            simp at hdd
          · exact ⟨d, hd', hdd⟩
    · simp [hc]

end translate

namespace translate

theorem Atoi_unfold (s : String) (hne : s.data ≠ []) (un : Nat) (k : Option NumErrKind)
    (hP : strconv.ParseUint (dropSign s.data) = (un, k)) :
    strconv.Atoi s =
      if k = some .ErrSyntax then (0, some (.NumError "Atoi" s .ErrSyntax))
      else if s.data.head? ≠ some '-' ∧ un ≥ 2 ^ 63 then
        (2 ^ 63 - 1, some (.NumError "Atoi" s .ErrRange))
      else if s.data.head? = some '-' ∧ un > 2 ^ 63 then
        (-(2 ^ 63), some (.NumError "Atoi" s .ErrRange))
      else (if s.data.head? = some '-' then -(un : Int) else (un : Int), none) := by
  unfold strconv.Atoi
  unfold dropSign at hP
  simp only [hne, if_false, hP]
  rcases k with _ | _ | _ <;> simp


theorem isNumeral_iff (cs : List Char) :
    isNumeral cs = true ↔ cs ≠ [] ∧ ∀ c ∈ cs, isDecimalDigit c = true := by
  cases cs <;> simp [isNumeral]

theorem dropSign_numeral (cs : List Char) (h : isNumeral cs = true) :
    dropSign cs = cs ∧ cs.head? ≠ some '-' := by
  obtain ⟨hne, hd⟩ := (isNumeral_iff cs).mp h
  cases cs with
  | nil => exact absurd rfl hne
  | cons c rest =>
    have hc := hd c (by simp)
    have h1 : c ≠ '+' := by
      rintro rfl
      revert hc
      decide
    have h2 : c ≠ '-' := by
      rintro rfl
      revert hc
      decide
    simp [dropSign, h1, h2]

theorem ParseUint_numeral (cs : List Char) (h : isNumeral cs = true) :
    (decimalValue cs 0 ≤ strconv.maxUint64 →
      strconv.ParseUint cs = (decimalValue cs 0, none)) ∧
    (strconv.maxUint64 < decimalValue cs 0 →
      strconv.ParseUint cs = (strconv.maxUint64, some .ErrRange)) := by
  obtain ⟨hne, hd⟩ := (isNumeral_iff cs).mp h
  unfold strconv.ParseUint
  simp only [hne, if_false]
  exact ⟨parseUintLoop_digits cs 0 hd,
    parseUintLoop_overflow cs 0 hd (by simp [strconv.maxUint64])⟩

theorem Atoi_numeral (s : String) (h : isNumeral s.data = true)
    (hv : decimalValue s.data 0 < 2 ^ 63) :
    strconv.Atoi s = (((decimalValue s.data 0 : Nat) : Int), none) := by
  obtain ⟨hds, hneg⟩ := dropSign_numeral s.data h
  have hP := (ParseUint_numeral s.data h).1 (by simp only [strconv.maxUint64]; omega)
  have hP' : strconv.ParseUint (dropSign s.data) = (decimalValue s.data 0, none) := by
    rw [hds]; exact hP
  rw [Atoi_unfold s ((isNumeral_iff _).mp h).1 _ _ hP']
  have h63 : ¬ 9223372036854775808 ≤ decimalValue s.data 0 := by omega
  simp [hneg, h63]

theorem Atoi_numeral_range (s : String) (h : isNumeral s.data = true)
    (hv : 2 ^ 63 ≤ decimalValue s.data 0) :
    strconv.Atoi s = (2 ^ 63 - 1, some (.NumError "Atoi" s .ErrRange)) := by
  obtain ⟨hds, hneg⟩ := dropSign_numeral s.data h
  by_cases hmax : decimalValue s.data 0 ≤ strconv.maxUint64
  · have hP' : strconv.ParseUint (dropSign s.data) = (decimalValue s.data 0, none) := by
      rw [hds]; exact (ParseUint_numeral s.data h).1 hmax
    rw [Atoi_unfold s ((isNumeral_iff _).mp h).1 _ _ hP']
    have hv' : 9223372036854775808 ≤ decimalValue s.data 0 := by omega
    simp [hneg, hv']
  · have hP' : strconv.ParseUint (dropSign s.data) = (strconv.maxUint64, some .ErrRange) := by
      rw [hds]; exact (ParseUint_numeral s.data h).2 (by omega)
    rw [Atoi_unfold s ((isNumeral_iff _).mp h).1 _ _ hP']
    simp [hneg, strconv.maxUint64]

theorem Atoi_not_numeral (s : String) (h : isNumeral (dropSign s.data) = false) :
    ∃ x k, strconv.Atoi s = (x, some (.NumError "Atoi" s k)) := by
  by_cases hne : s.data = []
  · exact ⟨0, .ErrSyntax, by simp [strconv.Atoi, hne]⟩
  · have hk : (strconv.ParseUint (dropSign s.data)).2 ≠ none := by
      unfold strconv.ParseUint
      by_cases hd : dropSign s.data = []
      · simp [hd]
      · simp only [hd, if_false]
        apply parseUintLoop_not_digits
        by_contra hcon
        push_neg at hcon
        have : isNumeral (dropSign s.data) = true :=
          (isNumeral_iff _).mpr ⟨hd, fun c hc => by simpa using hcon c hc⟩
        rw [this] at h
        exact absurd h (by decide)
    cases hP : strconv.ParseUint (dropSign s.data) with
    | mk un k =>
      rw [hP] at hk
      rw [Atoi_unfold s hne un k hP]
      cases k with
      | none => exact absurd rfl hk
      | some kind =>
        cases kind with
        | ErrSyntax => exact ⟨0, .ErrSyntax, by simp⟩
        | ErrRange =>
          have hun : un = strconv.maxUint64 := by
            have := parseUintLoop_range (dropSign s.data) 0
            unfold strconv.ParseUint at hP
            by_cases hd : dropSign s.data = []
            · simp [hd] at hP
            · simp only [hd, if_false] at hP
              rw [hP] at this
              exact this rfl
          subst hun
          by_cases hm : s.data.head? = some '-'
          · exact ⟨-(2 ^ 63), .ErrRange, by simp [hm, strconv.maxUint64]⟩
          · exact ⟨2 ^ 63 - 1, .ErrRange, by simp [hm, strconv.maxUint64]⟩

/-- C18. An INT literal is parsed as a base-10 integer of 64 bits: a text that is a
non-empty string of decimal digits with a value below 2^63 gives the integer literal of
its base-10 value; such a text with a value of 2^63 or more gives a range error, and a
text that, an optional sign apart, is not a non-empty string of decimal digits gives an
error of the parser, of which `Expression` returns the value and the error as they
are. -/
theorem Expression_int (conv : funC) (s : String) :
    (isNumeral s.data = true → decimalValue s.data 0 < 2 ^ 63 →
      Expression conv (.BasicLit ⟨.INT, s⟩) = .ok (.IntegerLit (decimalValue s.data 0 : Nat))) ∧
    (isNumeral s.data = true → 2 ^ 63 ≤ decimalValue s.data 0 →
      Expression conv (.BasicLit ⟨.INT, s⟩) =
        .fail (some (.IntegerLit (2 ^ 63 - 1))) (.NumError "Atoi" s .ErrRange)) ∧
    (isNumeral (dropSign s.data) = false →
      ∃ x k, Expression conv (.BasicLit ⟨.INT, s⟩) =
        .fail (some (.IntegerLit x)) (.NumError "Atoi" s k)) := by
  refine ⟨?_, ?_, ?_⟩
  · intro h hv
    simp [Expression, Atoi_numeral s h hv]
  · intro h hv
    simp [Expression, Atoi_numeral_range s h hv]
  · intro h
    obtain ⟨x, k, hA⟩ := Atoi_not_numeral s h
    exact ⟨x, k, by simp [Expression, hA]⟩

/-- Witness for C18: `return 42` gives the integer 42 and `010` the integer 10, while
`0x1F`, `0b1` and `1_000` give a syntax error and 9223372036854775808 a range error. -/
theorem Expression_int_witness :
    Statement sampleConv (.ReturnStmt [.BasicLit ⟨.INT, "42"⟩]) = .ok (.IntegerLit 42) ∧
      Expression sampleConv (.BasicLit ⟨.INT, "010"⟩) = .ok (.IntegerLit 10) ∧
      (∃ x k, Expression sampleConv (.BasicLit ⟨.INT, "0x1F"⟩) =
        .fail (some (.IntegerLit x)) (.NumError "Atoi" "0x1F" k)) ∧
      (∃ x k, Expression sampleConv (.BasicLit ⟨.INT, "0b1"⟩) =
        .fail (some (.IntegerLit x)) (.NumError "Atoi" "0b1" k)) ∧
      (∃ x k, Expression sampleConv (.BasicLit ⟨.INT, "1_000"⟩) =
        .fail (some (.IntegerLit x)) (.NumError "Atoi" "1_000" k)) ∧
      Expression sampleConv (.BasicLit ⟨.INT, "9223372036854775808"⟩) =
        .fail (some (.IntegerLit (2 ^ 63 - 1)))
          (.NumError "Atoi" "9223372036854775808" .ErrRange) :=
  ⟨rfl, (Expression_int sampleConv "010").1 (by decide) (by decide),
    (Expression_int sampleConv "0x1F").2.2 (by decide),
    (Expression_int sampleConv "0b1").2.2 (by decide),
    (Expression_int sampleConv "1_000").2.2 (by decide),
    (Expression_int sampleConv "9223372036854775808").2.1 (by decide) (by decide)⟩

end translate
